import Mathlib

/-!
Shallow embedding of the matching engine and connection state machine of the
`raikeshacks` web server (`web_server/services/similarity.py`,
`web_server/models/{student,connection,chat}.py`, `web_server/app.py`).

Modelling conventions:
* Python floats are modelled as exact arithmetic: stored vector components and
  match percentages as `ℚ`, similarity values (which involve `math.sqrt`) as `ℝ`.
* `datetime` values are modelled as integer instants (`ℤ`, in seconds); the
  1-hour cooldown `timedelta(hours=1)` is `3600`.
* The rag vectors are `list[Any]` in the source (numeric embeddings or keyword
  strings), modelled by the tagged type `Val`.  Arithmetic on a non-numeric
  element raises `TypeError` in Python; this is modelled by `Option`, `none`
  standing for a raised exception.
* The MongoDB collections are lists of documents; `find_one` is `List.find?`,
  `find_one_and_update` / `update_one` update the first matching document.
  `insert_one` on the `connections` collection either appends or signals
  `DuplicateKeyError` when a document with the same `connection_id` exists
  (the uniqueness constraint assumed by `upsert_connection`).
* External collaborators (the summary generator, the embedding provider) are
  parameters; push notifications and websocket events are recorded in an
  effect log instead of being sent.
-/

namespace Raike

/-- An element of a `list[Any]` rag vector: a numeric embedding component or a
keyword string (`models/student.py`, `Rag`). -/
inductive Val where
  | num (q : ℚ)
  | str (s : String)
deriving DecidableEq

/-- `isinstance(v, (int, float))` on a vector element. -/
def Val.isNum : Val → Bool
  | .num _ => true
  | .str _ => false

/-- A product `x * y` of two vector elements; `none` models the `TypeError`
Python raises when an operand is a string. -/
def valMul : Val → Val → Option ℚ
  | .num x, .num y => some (x * y)
  | _, _ => none

/-- `sum(x * y for x, y in zip(a, b))` (`similarity.py`, `_cosine_sim`). -/
def dotOpt : List Val → List Val → Option ℚ
  | a :: as, b :: bs => do pure ((← valMul a b) + (← dotOpt as bs))
  | _, _ => some 0

/-- `sum(x * x for x in a)` — the squared magnitude under the square root in
`_cosine_sim`. -/
def magSqOpt : List Val → Option ℚ
  | [] => some 0
  | a :: as => do pure ((← valMul a a) + (← magSqOpt as))

open Classical in
/-- `_cosine_sim` (`similarity.py` lines 20–28): returns `0.0` when either list
is empty or the lengths differ, and when either magnitude is zero; otherwise
`dot / (mag_a * mag_b)`. -/
noncomputable def cosine_sim (a b : List Val) : Option ℝ :=
  if a = [] ∨ b = [] ∨ a.length ≠ b.length then some 0
  else do
    let dot ← dotOpt a b
    let msa ← magSqOpt a
    let msb ← magSqOpt b
    let mag_a := Real.sqrt (msa : ℝ)
    let mag_b := Real.sqrt (msb : ℝ)
    if mag_a = 0 ∨ mag_b = 0 then some 0
    else some ((dot : ℝ) / (mag_a * mag_b))

/-- `_jaccard_sim` (`similarity.py` lines 30–33): `0` when either set is empty,
else `|A ∩ B| / |A ∪ B|`.  Used both on vector-element sets and on industry
string sets, hence polymorphic. -/
def jaccard_sim {α : Type} [DecidableEq α] (set_a set_b : Finset α) : ℚ :=
  if set_a = ∅ ∨ set_b = ∅ then 0
  else ((set_a ∩ set_b).card : ℚ) / ((set_a ∪ set_b).card : ℚ)

/-! ### Student data model (`models/student.py`) -/

inductive FocusArea where
  | startup | research | side_project | open_source | looking
deriving DecidableEq

inductive ProjectStage where
  | idea | mvp | launched | scaling
deriving DecidableEq

inductive SkillSource where
  | resume | portfolio | questionnaire
deriving DecidableEq

inductive SkillPriority where
  | must_have | nice_to_have
deriving DecidableEq

structure Identity where
  full_name : String
  email : String
  profile_photo_url : Option String := none
  university : String
  graduation_year : ℤ
  major : List String
  minor : List String := []
deriving DecidableEq

structure Project where
  one_liner : Option String := none
  stage : Option ProjectStage := none
  industry : List String := []
deriving DecidableEq

structure PossessedSkill where
  name : String
  source : SkillSource
deriving DecidableEq

structure NeededSkill where
  name : String
  priority : SkillPriority
deriving DecidableEq

structure Skills where
  possessed : List PossessedSkill := []
  needed : List NeededSkill := []
deriving DecidableEq

/-- The cached embedding bundle. -/
structure Rag where
  possessed_vector : List Val := []
  needed_vector : List Val := []
  last_indexed_at : Option ℤ := none
deriving DecidableEq

structure StudentProfile where
  uid : String
  created_at : ℤ
  updated_at : Option ℤ := none
  identity : Identity
  focus_areas : List FocusArea
  project : Option Project := none
  rag : Option Rag := none
  skills : Skills
deriving DecidableEq

structure StudentCreate where
  identity : Identity
  focus_areas : List FocusArea
  project : Option Project := none
  skills : Skills
deriving DecidableEq

structure StudentUpdate where
  identity : Option Identity := none
  focus_areas : Option (List FocusArea) := none
  project : Option Project := none
  skills : Option Skills := none
deriving DecidableEq

/-! ### Profile vectorization (`similarity.py` lines 90–111) -/

/-- `FOCUS_AREA_ORDER = [e.value for e in FocusArea]` — the fixed enumeration
order of the `FocusArea` enum. -/
def FOCUS_AREA_ORDER : List FocusArea :=
  [.startup, .research, .side_project, .open_source, .looking]

structure ProfileVectors where
  possessed_vec : List Val := []
  needed_vec : List Val := []
  focus_vec : List Val := []
  possessed_names : Finset String := ∅
  needed_names : Finset String := ∅

/-- `vectorize_profile` (`similarity.py` lines 100–111). -/
def vectorize_profile (profile : StudentProfile) : ProfileVectors :=
  let possessed_vec := match profile.rag with
    | some r => r.possessed_vector
    | none => []
  let needed_vec := match profile.rag with
    | some r => r.needed_vector
    | none => []
  let focus_vec := FOCUS_AREA_ORDER.map fun fa =>
    Val.num (if fa ∈ profile.focus_areas then 1 else 0)
  { possessed_vec := possessed_vec
    needed_vec := needed_vec
    focus_vec := focus_vec
    possessed_names := (profile.skills.possessed.map fun s => s.name.trim.toLower).toFinset
    needed_names := (profile.skills.needed.map fun s => s.name.trim.toLower).toFinset }

/-! ### Scoring (`similarity.py` lines 115–187) -/

structure MatchScore where
  score : ℝ
  complementarity : ℝ
  help_they_give_you : ℝ
  help_you_give_them : ℝ
  focus_overlap : ℝ
  industry_overlap : ℝ
  matched_skills : List String
  skills_you_offer : List String

structure Weights where
  complementarity : ℝ := 0.65
  focus : ℝ := 0.20
  industry : ℝ := 0.15

/-- The `use_semantic` condition of `compute_match` (lines 140–145): both
possessed vectors non-empty and their first elements numeric.  Note it looks
only at the two possessed vectors, once per profile pair. -/
def use_semantic (query_vecs cand_vecs : ProfileVectors) : Bool :=
  match query_vecs.possessed_vec, cand_vecs.possessed_vec with
  | q :: _, c :: _ => q.isNum && c.isNum
  | _, _ => false

open Classical in
/-- `compute_match` (`similarity.py` lines 132–187).  `none` models a raised
`TypeError` (string elements reaching float arithmetic). -/
noncomputable def compute_match (query_profile : StudentProfile)
    (query_vecs : ProfileVectors) (cand_profile : StudentProfile)
    (cand_vecs : ProfileVectors) (weights : Weights) : Option MatchScore := do
  let hh ←
    if use_semantic query_vecs cand_vecs then do
      let help_they_give_you ← cosine_sim query_vecs.needed_vec cand_vecs.possessed_vec
      let help_you_give_them ← cosine_sim cand_vecs.needed_vec query_vecs.possessed_vec
      pure (help_they_give_you, help_you_give_them)
    else
      -- Fallback keyword match: Jaccard over the raw vector contents as sets
      pure (((jaccard_sim query_vecs.needed_vec.toFinset cand_vecs.possessed_vec.toFinset : ℚ) : ℝ),
            ((jaccard_sim cand_vecs.needed_vec.toFinset query_vecs.possessed_vec.toFinset : ℚ) : ℝ))
  let complementarity := 0.5 * hh.1 + 0.5 * hh.2
  let focus_overlap ← cosine_sim query_vecs.focus_vec cand_vecs.focus_vec
  let q_inds : Finset String := match query_profile.project with
    | some pr => pr.industry.toFinset
    | none => ∅
  let c_inds : Finset String := match cand_profile.project with
    | some pr => pr.industry.toFinset
    | none => ∅
  let industry_overlap : ℝ := (jaccard_sim q_inds c_inds : ℚ)
  let score := weights.complementarity * complementarity
    + weights.focus * focus_overlap
    + weights.industry * industry_overlap
  pure
    { score := score
      complementarity := complementarity
      help_they_give_you := hh.1
      help_you_give_them := hh.2
      focus_overlap := focus_overlap
      industry_overlap := industry_overlap
      matched_skills := (query_vecs.needed_names ∩ cand_vecs.possessed_names).sort (· ≤ ·)
      skills_you_offer := (cand_vecs.needed_names ∩ query_vecs.possessed_names).sort (· ≤ ·) }

open Classical in
/-- The candidate loop of `find_matches` (`similarity.py` lines 209–214):
score every candidate and keep those with `ms.score >= threshold`; `none`
models an uncaught `TypeError` from `compute_match`. -/
noncomputable def score_candidates (query_profile : StudentProfile)
    (query_vecs : ProfileVectors) (weights : Weights) (threshold : ℝ) :
    List StudentProfile → Option (List (StudentProfile × MatchScore))
  | [] => some []
  | cand :: rest => do
    let ms ← compute_match query_profile query_vecs cand (vectorize_profile cand) weights
    let tail ← score_candidates query_profile query_vecs weights threshold rest
    pure (if decide (ms.score ≥ threshold) then (cand, ms) :: tail else tail)

open Classical in
/-- `find_matches` (`similarity.py` lines 191–217), with the database read
made explicit: `profiles` is the content of the `student_profiles` collection.
The outer `Option` models an uncaught `TypeError` from `compute_match`. -/
noncomputable def find_matches (profiles : List StudentProfile) (query_uid : String)
    (limit : ℕ) (threshold : ℝ) (weights : Weights) :
    Option (Option StudentProfile × ℕ × List (StudentProfile × MatchScore)) := do
  match profiles.find? (fun p => p.uid == query_uid) with
  | none => pure (none, 0, [])
  | some query_profile =>
    let candidates := profiles.filter fun p => !(p.uid == query_uid)
    let query_vecs := vectorize_profile query_profile
    let results ← score_candidates query_profile query_vecs weights threshold candidates
    -- `results.sort(key=..., reverse=True)`: stable sort, score descending
    let sorted := results.mergeSort fun a b => decide (b.2.score ≤ a.2.score)
    pure (some query_profile, candidates.length, sorted.take limit)


/-! ### Connection data model (`models/connection.py`) -/

/-- `sorted([a, b])` on a two-element list of strings. -/
def pySorted2 (a b : String) : String × String :=
  if a ≤ b then (a, b) else (b, a)

/-- `make_connection_id` (`connection.py` lines 13–16):
`a, b = sorted([uid_a, uid_b]); return f"{a}_{b}"`. -/
def make_connection_id (uid_a uid_b : String) : String :=
  (pySorted2 uid_a uid_b).1 ++ "_" ++ (pySorted2 uid_a uid_b).2

/-- The `Connection` document (`connection.py` lines 22–35). -/
structure Connection where
  connection_id : String
  uid1 : String
  uid2 : String
  uid1_accepted : Bool := false
  uid2_accepted : Bool := false
  match_percentage : ℚ
  uid1_summary : Option String := none
  uid2_summary : Option String := none
  notification_message : Option String := none
  created_at : ℤ
  updated_at : Option ℤ := none
  last_nearby_notified_at : Option ℤ := none
deriving DecidableEq

/-- The `Room` document (`models/chat.py` lines 24–29). -/
structure Room where
  room_id : String
  participants : List String
  created_at : ℤ
  updated_at : Option ℤ := none
deriving DecidableEq

/-- The mutable server-side store: the three MongoDB collections the
connection endpoints touch. -/
structure ServerState where
  students : List StudentProfile := []
  connections : List Connection := []
  chat_rooms : List Room := []
deriving DecidableEq

/-- Update the first element satisfying `p` (MongoDB `update_one` /
`find_one_and_update` semantics on a single-key filter). -/
def updateFirst {α : Type} (p : α → Bool) (f : α → α) : List α → List α
  | [] => []
  | x :: xs => if p x then f x :: xs else x :: updateFirst p f xs

/-- `find_one_and_update(filter, {"$set": ...}, return_document=True)`:
the updated first match (or `none`) together with the updated collection. -/
def findOneAndUpdate {α : Type} (p : α → Bool) (f : α → α) (l : List α) :
    Option α × List α :=
  match l.find? p with
  | none => (none, l)
  | some x => (some (f x), updateFirst p f l)

/-- `get_student` (`student.py` lines 135–141). -/
def get_student (st : ServerState) (uid : String) : Option StudentProfile :=
  st.students.find? fun p => p.uid == uid

/-- `get_connection` (`connection.py` lines 57–63). -/
def get_connection (st : ServerState) (connection_id : String) : Option Connection :=
  st.connections.find? fun c => c.connection_id == connection_id

/-- `upsert_connection` (`connection.py` lines 92–103): `insert_one`, and on
`DuplicateKeyError` (a document with this `connection_id` already exists —
the collection's uniqueness constraint) fetch and return the existing one. -/
def upsert_connection (st : ServerState) (doc : Connection) :
    Connection × ServerState :=
  match st.connections.find? (fun c => c.connection_id == doc.connection_id) with
  | none => (doc, { st with connections := st.connections ++ [doc] })
  | some existing => (existing, st)

/-- `accept_connection` (`connection.py` lines 106–129).  Sets the
`uidX_accepted` flag for `uid`'s position (and `updated_at`); `none` models
the not-found return. -/
def accept_connection (now : ℤ) (st : ServerState) (connection_id uid : String) :
    Option (Connection × ServerState) :=
  match st.connections.find? (fun c => c.connection_id == connection_id) with
  | none => none
  | some conn =>
    if uid == conn.uid1 then
      let (res, conns) := findOneAndUpdate (fun c => c.connection_id == connection_id)
        (fun c => { c with uid1_accepted := true, updated_at := some now }) st.connections
      res.map fun r => (r, { st with connections := conns })
    else if uid == conn.uid2 then
      let (res, conns) := findOneAndUpdate (fun c => c.connection_id == connection_id)
        (fun c => { c with uid2_accepted := true, updated_at := some now }) st.connections
      res.map fun r => (r, { st with connections := conns })
    else none

/-- `update_nearby_notified_at` (`connection.py` lines 132–139): `update_one`
setting `last_nearby_notified_at` to now. -/
def update_nearby_notified_at (st : ServerState) (connection_id : String) (now : ℤ) :
    ServerState :=
  { st with connections :=
      (updateFirst (fun c => c.connection_id == connection_id)
        (fun c => { c with last_nearby_notified_at := some now }) st.connections) }

/-- `update_connection_summaries` (`connection.py` lines 142–166). -/
def update_connection_summaries (st : ServerState) (connection_id : String)
    (uid1_summary uid2_summary notification_message : Option String) (now : ℤ) :
    Option Connection × ServerState :=
  let (res, conns) := findOneAndUpdate (fun c => c.connection_id == connection_id)
    (fun c => { c with uid1_summary := uid1_summary, uid2_summary := uid2_summary,
                       notification_message := notification_message,
                       updated_at := some now }) st.connections
  (res, { st with connections := conns })

/-! ### Chat rooms (`models/chat.py`) -/

/-- `make_room_id` (`chat.py` lines 53–56) — textually the same derivation as
`make_connection_id`. -/
def make_room_id (uid_a uid_b : String) : String :=
  (pySorted2 uid_a uid_b).1 ++ "_" ++ (pySorted2 uid_a uid_b).2

/-- `get_or_create_room` (`chat.py` lines 62–83).  `Except.error` models the
`ValueError` raised unless exactly two participant UIDs are given. -/
def get_or_create_room (now : ℤ) (st : ServerState) (participant_uids : List String) :
    Except Unit (Room × ServerState) :=
  match participant_uids with
  | [uid_a, uid_b] =>
    let room_id := make_room_id uid_a uid_b
    match st.chat_rooms.find? (fun r => r.room_id == room_id) with
    | some existing => .ok (existing, st)
    | none =>
      let doc : Room :=
        { room_id := room_id
          participants := [(pySorted2 uid_a uid_b).1, (pySorted2 uid_a uid_b).2]
          created_at := now }
      .ok (doc, { st with chat_rooms := st.chat_rooms ++ [doc] })
  | _ => .error ()

/-! ### Side effects and endpoints (`app.py`)

Push notifications and websocket events are recorded in an effect log.  The
constructors carry the decision-relevant data (event type, recipients,
connection / room id); the human-readable title and body strings of the
notifications are abstracted away. -/

inductive Effect where
  /-- A call to `generate_connection_summaries` (the Gemini request). -/
  | summariesGenerated (connection_id : String)
  /-- The `match_found` websocket broadcast. -/
  | wsMatchFound (uids : List String) (connection_id : String)
  /-- The unconditional "New Match!" push in `create_connection`. -/
  | pushNew (uid : String) (connection_id : String)
  /-- The `connection_accepted` websocket event to the other participant. -/
  | wsConnectionAccepted (uid : String) (connection_id : String)
  /-- The "Someone accepted!" push to the other participant. -/
  | pushAccepted (uid : String) (connection_id : String)
  /-- The `connection_complete` websocket broadcast. -/
  | wsConnectionComplete (uids : List String) (connection_id room_id : String)
  /-- The "Connection Complete!" push. -/
  | pushComplete (uid : String) (connection_id room_id : String)
  /-- The "A match is nearby!" push in `notify_nearby`. -/
  | pushNearby (uid : String) (connection_id : String)
  /-- The `reencounter` websocket broadcast. -/
  | wsReencounter (uids : List String) (connection_id : String)
deriving DecidableEq

/-- Output of `generate_connection_summaries` (best-effort: all fields may be
`None`); the generator itself is an external collaborator, passed as a
parameter `summarize`. -/
structure Summaries where
  uid1_summary : Option String := none
  uid2_summary : Option String := none
  notification_message : Option String := none

inductive CreateErr where
  /-- HTTP 404 `Student {uid} not found`. -/
  | studentNotFound (uid : String)
  /-- An uncaught exception (`TypeError` from scoring, or `AttributeError`
  when the updated connection came back `None`). -/
  | internalError
deriving DecidableEq

/-- `round(x, 1)` on the match percentage (`app.py` line 278).  Python rounds
half-to-even on binary floats; modelled as rounding to the nearest tenth
(Mathlib `round`, half-up).  The two differ only at exact ties, which no
claim exercises. -/
noncomputable def round1 (x : ℝ) : ℚ :=
  ((round (x * 10) : ℤ) : ℚ) / 10

open Classical in
/-- `create_connection` (`app.py` lines 256–327) after the existence
pre-check: lines 267–327.  `uid1 ≤ uid2` is the sorted pair and
`connection_id` their canonical id, computed in the first phase.  Everything
from the profile fetch through the side effects runs here; in particular the
branch on `match_percentage >= 60` runs regardless of whether
`upsert_connection` inserted the document or fetched an existing duplicate. -/
noncomputable def create_connection_rest
    (summarize : StudentProfile → StudentProfile → ℚ → Summaries)
    (now : ℤ) (st : ServerState) (uid1 uid2 connection_id : String) :
    Except CreateErr (Connection × ServerState × List Effect) :=
  match get_student st uid1, get_student st uid2 with
  | none, _ => .error (.studentNotFound uid1)
  | some _, none => .error (.studentNotFound uid2)
  | some profile1, some profile2 =>
    match compute_match profile1 (vectorize_profile profile1)
        profile2 (vectorize_profile profile2) {} with
    | none => .error .internalError
    | some match_score =>
      let match_percentage := round1 (match_score.score * 100)
      let conn_doc : Connection :=
        { connection_id := connection_id
          uid1 := uid1
          uid2 := uid2
          match_percentage := match_percentage
          created_at := now }
      let (connection, st1) := upsert_connection st conn_doc
      if match_percentage ≥ 60 then
        let summaries := summarize profile1 profile2 match_percentage
        let (conn2, st2) :=
          if summaries.uid1_summary.isSome then
            update_connection_summaries st1 connection_id
              summaries.uid1_summary summaries.uid2_summary
              summaries.notification_message now
          else (some connection, st1)
        match conn2 with
        | none => .error .internalError
        | some connection =>
          .ok (connection, st2,
            [.summariesGenerated connection_id,
             .wsMatchFound [uid1, uid2] connection_id,
             .pushNew uid1 connection_id, .pushNew uid2 connection_id])
      else
        .ok (connection, st1,
          [.pushNew uid1 connection_id, .pushNew uid2 connection_id])

open Classical in
/-- `create_connection` (`app.py` lines 256–327): sort the pair, compute the
canonical id, return an existing record as-is (no side effects), otherwise
run the creation phase. -/
noncomputable def create_connection
    (summarize : StudentProfile → StudentProfile → ℚ → Summaries)
    (now : ℤ) (st : ServerState) (buid1 buid2 : String) :
    Except CreateErr (Connection × ServerState × List Effect) :=
  let uid1 := (pySorted2 buid1 buid2).1
  let uid2 := (pySorted2 buid1 buid2).2
  let connection_id := make_connection_id uid1 uid2
  match get_connection st connection_id with
  | some existing => .ok (existing, st, [])
  | none => create_connection_rest summarize now st uid1 uid2 connection_id

/-- `accept_connection_endpoint` (`app.py` lines 350–388).  `Except.error`
models the HTTP 404 "Connection not found or UID mismatch". -/
def accept_connection_endpoint (now : ℤ) (st : ServerState)
    (connection_id uid : String) :
    Except Unit (Connection × ServerState × List Effect) :=
  match accept_connection now st connection_id uid with
  | none => .error ()
  | some (conn, st1) =>
    let other_uid := if uid == conn.uid1 then conn.uid2 else conn.uid1
    if conn.uid1_accepted && conn.uid2_accepted then
      match get_or_create_room now st1 [conn.uid1, conn.uid2] with
      | .error e => .error e
      | .ok (room, st2) =>
        .ok (conn, st2,
          [.wsConnectionComplete [conn.uid1, conn.uid2] connection_id room.room_id,
           .pushComplete conn.uid1 connection_id room.room_id,
           .pushComplete conn.uid2 connection_id room.room_id])
    else
      .ok (conn, st1,
        [.wsConnectionAccepted other_uid connection_id,
         .pushAccepted other_uid connection_id])

/-- `notify_nearby` (`app.py` lines 391–429). -/
def notify_nearby (now : ℤ) (st : ServerState) (connection_id : String) :
    Except Unit (Connection × ServerState × List Effect) :=
  match get_connection st connection_id with
  | none => .error ()
  | some conn =>
    -- Only notify for matches above threshold
    if conn.match_percentage < 60 then .ok (conn, st, [])
    else
      -- Cooldown: skip if notified within the last hour
      let cooled : Bool := match conn.last_nearby_notified_at with
        | some last => decide (now - last < 3600)
        | none => false
      if cooled then .ok (conn, st, [])
      else
        .ok (conn, update_nearby_notified_at st connection_id now,
          [.pushNearby conn.uid1 connection_id,
           .pushNearby conn.uid2 connection_id,
           .wsReencounter [conn.uid1, conn.uid2] connection_id])


/-! ### Student CRUD and embedding generation
(`models/student.py`, `services/similarity.py` lines 67–86)

`generate_profile_embeddings` is `async def`, but `create_student` (line 128)
and `update_student` (line 172) call it WITHOUT `await`: the value bound to
the `rag` field is the coroutine object itself, not the embedding bundle.
`PyRagVal.coroutine` models that un-awaited coroutine.  The BSON encoder
cannot serialize a coroutine, so the subsequent `insert_one` /
`find_one_and_update` raises `InvalidDocument` (and `StudentProfile(**doc)`
validation would likewise reject it); these raises are modelled as
`Except.error`. -/

/-- Python truthiness of an optional string: `None` and `""` are falsy. -/
def truthyStr : Option String → Bool
  | some s => !(s == "")
  | none => false

/-- `generate_profile_embeddings` (`similarity.py` lines 67–86), with the
OpenRouter embedding call abstracted as the oracle `embed` (which returns
`[]` when the provider is unconfigured or errors). -/
def generate_profile_embeddings (embed : String → List ℚ) (now : ℤ)
    (profile : StudentProfile) : Rag :=
  let possessed_items := profile.skills.possessed.map (fun s => s.name)
    ++ (match profile.project with
        | some pr => if truthyStr pr.one_liner then [pr.one_liner.getD ""] else []
        | none => [])
    ++ (match profile.project with
        | some pr => pr.industry
        | none => [])
  let possessed_text := String.intercalate ". " possessed_items
  let needed_items := profile.skills.needed.map fun s => s.name
  let needed_text := String.intercalate ". " needed_items
  { possessed_vector := (embed possessed_text).map Val.num
    needed_vector := (embed needed_text).map Val.num
    last_indexed_at := some now }

/-- The value sitting in a stored student document's `rag` slot. -/
inductive PyRagVal where
  | pyNone
  | val (r : Rag)
  /-- The un-awaited coroutine object returned by calling the `async`
  `generate_profile_embeddings` without `await` (`student.py` lines 128, 172);
  it closes over the profile the call received. -/
  | coroutine (profile : StudentProfile)
deriving DecidableEq

/-- A document of the `student_profiles` collection as built by the CRUD
layer (its `rag` slot may hold the un-awaited coroutine). -/
structure StudentDoc where
  uid : String
  created_at : ℤ
  updated_at : Option ℤ := none
  identity : Identity
  focus_areas : List FocusArea
  project : Option Project := none
  rag : PyRagVal := .pyNone
  skills : Skills
deriving DecidableEq

/-- `StudentProfile(**doc)`: pydantic validation of a stored document;
fails (`none`) if the `rag` slot holds a coroutine object. -/
def toProfile (d : StudentDoc) : Option StudentProfile :=
  match d.rag with
  | .coroutine _ => none
  | .pyNone => some
      { uid := d.uid, created_at := d.created_at, updated_at := d.updated_at
        identity := d.identity, focus_areas := d.focus_areas
        project := d.project, rag := none, skills := d.skills }
  | .val r => some
      { uid := d.uid, created_at := d.created_at, updated_at := d.updated_at
        identity := d.identity, focus_areas := d.focus_areas
        project := d.project, rag := some r, skills := d.skills }

/-- The `temp_profile = StudentProfile(**doc)` of `create_student`
(`student.py` line 127): the base document before embeddings. -/
def temp_profile (now : ℤ) (uuid : String) (data : StudentCreate) : StudentProfile :=
  { uid := uuid, created_at := now, identity := data.identity
    focus_areas := data.focus_areas, project := data.project
    rag := none, skills := data.skills }

/-- The document `create_student` (`student.py` lines 112–132) builds and
hands to `insert_one`: `doc["rag"] = generate_profile_embeddings(temp_profile)`
binds the coroutine object (no `await`). -/
def create_student_doc (now : ℤ) (uuid : String) (data : StudentCreate) : StudentDoc :=
  { uid := uuid, created_at := now, identity := data.identity
    focus_areas := data.focus_areas, project := data.project
    skills := data.skills
    rag := .coroutine (temp_profile now uuid data) }

/-- `create_student` at the store level: `insert_one` raises
`InvalidDocument` on the coroutine-valued `rag`, so the call errors and the
collection is unchanged. -/
def create_student (now : ℤ) (uuid : String) (docs : List StudentDoc)
    (data : StudentCreate) : Except Unit StudentDoc × List StudentDoc :=
  let _doc := create_student_doc now uuid data
  (.error (), docs)

/-- The `$set` of `update_student` (`student.py` lines 150–164):
`data.model_dump(exclude_none=True)` plus `updated_at`. -/
def applyChanges (now : ℤ) (data : StudentUpdate) (d : StudentDoc) : StudentDoc :=
  { d with
    identity := data.identity.getD d.identity
    focus_areas := data.focus_areas.getD d.focus_areas
    project := (match data.project with | some p => some p | none => d.project)
    skills := data.skills.getD d.skills
    updated_at := some now }

/-- `update_student` (`student.py` lines 144–182).  When the changes include
`skills` or `project` the code re-derives `rag` by calling the `async`
`generate_profile_embeddings` without `await` and tries to store the
resulting coroutine object; the driver raises before writing it, leaving the
first update (the field changes) applied but `rag` untouched. -/
def update_student (now : ℤ) (docs : List StudentDoc) (uid : String)
    (data : StudentUpdate) : Except Unit (Option StudentDoc) × List StudentDoc :=
  if data.identity = none ∧ data.focus_areas = none
      ∧ data.project = none ∧ data.skills = none then
    (.ok (docs.find? fun d => d.uid == uid), docs)
  else
    let (result, docs1) := findOneAndUpdate (fun d => d.uid == uid)
      (applyChanges now data) docs
    match result with
    | none => (.ok none, docs1)
    | some result =>
      if data.skills.isSome || data.project.isSome then
        match toProfile result with
        | none => (.error (), docs1)  -- StudentProfile(**result) raises
        | some profile =>
          -- rag = generate_profile_embeddings(profile)  ← no await: coroutine
          let _rag := PyRagVal.coroutine profile
          -- find_one_and_update({"$set": {"rag": rag}}) raises InvalidDocument
          (.error (), docs1)
      else
        (.ok (some result), docs1)


/-! ### Helper lemmas: numeric vectors and Cauchy–Schwarz -/

/-- The dot product of two rational lists, zip-truncated like the Python
generator expression. -/
def dotQ : List ℚ → List ℚ → ℚ
  | x :: xs, y :: ys => x * y + dotQ xs ys
  | _, _ => 0

/-- `sum(x * x for x in l)` on a rational list. -/
def magSqQ : List ℚ → ℚ
  | [] => 0
  | x :: xs => x * x + magSqQ xs

lemma magSqQ_nonneg (l : List ℚ) : 0 ≤ magSqQ l := by
  induction l with
  | nil => simp [magSqQ]
  | cons x xs ih => simpa [magSqQ] using add_nonneg (mul_self_nonneg x) ih

lemma dotOpt_map_num (a b : List ℚ) :
    dotOpt (a.map Val.num) (b.map Val.num) = some (dotQ a b) := by
  induction a generalizing b with
  | nil => cases b <;> simp [dotOpt, dotQ]
  | cons x xs ih =>
    cases b with
    | nil => simp [dotOpt, dotQ]
    | cons y ys => simp [dotOpt, dotQ, valMul, ih]

lemma magSqOpt_map_num (l : List ℚ) :
    magSqOpt (l.map Val.num) = some (magSqQ l) := by
  induction l with
  | nil => simp [magSqOpt, magSqQ]
  | cons x xs ih => simp [magSqOpt, magSqQ, valMul, ih]

/-- A list whose squared magnitude evaluates without a `TypeError` is wholly
numeric. -/
lemma magSqOpt_some (l : List Val) (m : ℚ) (h : magSqOpt l = some m) :
    ∃ xs : List ℚ, l = xs.map Val.num ∧ m = magSqQ xs := by
  induction l generalizing m with
  | nil =>
    refine ⟨[], by simp, ?_⟩
    simpa [magSqOpt, magSqQ] using h.symm
  | cons v vs ih =>
    cases v with
    | num x =>
      simp only [magSqOpt, valMul, bind, Option.bind_eq_some, Option.pure_def,
        Option.some.injEq] at h
      obtain ⟨m', hm', a, ha, hsum⟩ := h
      obtain ⟨xs, hxs, hmag⟩ := ih a ha
      refine ⟨x :: xs, by simp [hxs], ?_⟩
      simp only [magSqQ]
      rw [hm', ← hmag]
      exact hsum.symm
    | str s => simp [magSqOpt, valMul, bind] at h

/-- Cauchy–Schwarz for the zip-truncated dot product. -/
lemma dotQ_sq_le : ∀ a b : List ℚ, (dotQ a b) ^ 2 ≤ magSqQ a * magSqQ b
  | [], b => by simp [dotQ, magSqQ]
  | x :: xs, [] => by simp [dotQ, magSqQ]
  | x :: xs, y :: ys => by
    have IH := dotQ_sq_le xs ys
    have hA := magSqQ_nonneg xs
    have hB := magSqQ_nonneg ys
    simp only [dotQ, magSqQ]
    rcases eq_or_lt_of_le hB with hB0 | hBpos
    · have hd2 : dotQ xs ys ^ 2 ≤ 0 := by nlinarith
      have hd : dotQ xs ys = 0 :=
        (pow_eq_zero_iff (by norm_num : (2:ℕ) ≠ 0)).mp (le_antisymm hd2 (sq_nonneg _))
      rw [hd, ← hB0]
      nlinarith [mul_nonneg hA (mul_self_nonneg y)]
    · have expand : (x * x + magSqQ xs) * (y * y + magSqQ ys) * magSqQ ys
          - (x * y + dotQ xs ys) ^ 2 * magSqQ ys
          = (x * magSqQ ys - y * dotQ xs ys) ^ 2
            + (y * y + magSqQ ys) * (magSqQ xs * magSqQ ys - dotQ xs ys ^ 2) := by
        ring
      have h2 : 0 ≤ (x * x + magSqQ xs) * (y * y + magSqQ ys) * magSqQ ys
          - (x * y + dotQ xs ys) ^ 2 * magSqQ ys := by
        rw [expand]
        have := mul_nonneg (by nlinarith : (0:ℚ) ≤ y * y + magSqQ ys)
          (by linarith : (0:ℚ) ≤ magSqQ xs * magSqQ ys - dotQ xs ys ^ 2)
        nlinarith [sq_nonneg (x * magSqQ ys - y * dotQ xs ys)]
      nlinarith

lemma dotQ_nonneg :
    ∀ a b : List ℚ, (∀ q ∈ a, 0 ≤ q) → (∀ q ∈ b, 0 ≤ q) → 0 ≤ dotQ a b
  | [], _, _, _ => by simp [dotQ]
  | _ :: _, [], _, _ => by simp [dotQ]
  | x :: xs, y :: ys, ha, hb => by
    have hx : 0 ≤ x := ha x (by simp)
    have hy : 0 ≤ y := hb y (by simp)
    have hrec := dotQ_nonneg xs ys (fun q hq => ha q (by simp [hq]))
      (fun q hq => hb q (by simp [hq]))
    simpa [dotQ] using add_nonneg (mul_nonneg hx hy) hrec

/-- Any result `_cosine_sim` actually returns lies in `[-1, 1]`. -/
lemma cosine_sim_bounds (a b : List Val) (r : ℝ) (h : cosine_sim a b = some r) :
    -1 ≤ r ∧ r ≤ 1 := by
  unfold cosine_sim at h
  split at h
  · cases h; norm_num
  · simp only [bind, Option.bind_eq_some, Option.some.injEq] at h
    obtain ⟨d, hd, ma, hma, mb, hmb, h⟩ := h
    obtain ⟨xa, rfl, rfl⟩ := magSqOpt_some _ _ hma
    obtain ⟨xb, rfl, rfl⟩ := magSqOpt_some _ _ hmb
    rw [dotOpt_map_num] at hd
    obtain rfl : dotQ xa xb = d := by simpa using hd
    split at h
    · cases h; norm_num
    · rename_i hmag
      push_neg at hmag
      obtain ⟨hA, hB⟩ := hmag
      have hA' : (0:ℝ) < (magSqQ xa : ℝ) := by
        rcases lt_or_le 0 ((magSqQ xa : ℝ)) with h' | h'
        · exact h'
        · exact absurd (Real.sqrt_eq_zero'.mpr h') hA
      have hB' : (0:ℝ) < (magSqQ xb : ℝ) := by
        rcases lt_or_le 0 ((magSqQ xb : ℝ)) with h' | h'
        · exact h'
        · exact absurd (Real.sqrt_eq_zero'.mpr h') hB
      have hdenom : (0:ℝ) < Real.sqrt (magSqQ xa : ℝ) * Real.sqrt (magSqQ xb : ℝ) :=
        mul_pos (Real.sqrt_pos.mpr hA') (Real.sqrt_pos.mpr hB')
      have hcs : ((dotQ xa xb : ℝ)) ^ 2 ≤ (magSqQ xa : ℝ) * (magSqQ xb : ℝ) := by
        exact_mod_cast dotQ_sq_le xa xb
      have habs : |(dotQ xa xb : ℝ)|
          ≤ Real.sqrt (magSqQ xa : ℝ) * Real.sqrt (magSqQ xb : ℝ) := by
        rw [← Real.sqrt_sq_eq_abs, ← Real.sqrt_mul hA'.le]
        exact Real.sqrt_le_sqrt hcs
      cases h
      constructor
      · rw [le_div_iff₀ hdenom]
        nlinarith [neg_abs_le ((dotQ xa xb : ℝ))]
      · rw [div_le_one hdenom]
        exact (le_abs_self _).trans habs

/-- `_cosine_sim` on entrywise-nonnegative numeric vectors is nonnegative. -/
lemma cosine_sim_nonneg (xa xb : List ℚ) (r : ℝ)
    (h : cosine_sim (xa.map Val.num) (xb.map Val.num) = some r)
    (ha : ∀ q ∈ xa, 0 ≤ q) (hb : ∀ q ∈ xb, 0 ≤ q) : 0 ≤ r := by
  unfold cosine_sim at h
  split at h
  · cases h; norm_num
  · simp only [bind, Option.bind_eq_some, Option.some.injEq] at h
    obtain ⟨d, hd, ma, hma, mb, hmb, h⟩ := h
    rw [dotOpt_map_num] at hd
    rw [magSqOpt_map_num] at hma hmb
    obtain rfl : dotQ xa xb = d := by simpa using hd
    obtain rfl : magSqQ xa = ma := by simpa using hma
    obtain rfl : magSqQ xb = mb := by simpa using hmb
    split at h
    · cases h; norm_num
    · cases h
      have hd0 : (0:ℝ) ≤ ((dotQ xa xb : ℚ) : ℝ) := by
        exact_mod_cast dotQ_nonneg xa xb ha hb
      positivity

lemma jaccard_sim_nonneg {α : Type} [DecidableEq α] (A B : Finset α) :
    0 ≤ jaccard_sim A B := by
  unfold jaccard_sim
  split
  · exact le_refl 0
  · positivity

lemma jaccard_sim_le_one {α : Type} [DecidableEq α] (A B : Finset α) :
    jaccard_sim A B ≤ 1 := by
  unfold jaccard_sim
  split
  · norm_num
  · rename_i hne
    push_neg at hne
    have hpos : (0:ℚ) < ((A ∪ B).card : ℚ) := by
      have : 0 < (A ∪ B).card := Finset.card_pos.mpr
        ⟨(Finset.nonempty_iff_ne_empty.mpr hne.1).choose,
         Finset.mem_union_left _ (Finset.nonempty_iff_ne_empty.mpr hne.1).choose_spec⟩
      exact_mod_cast this
    rw [div_le_one hpos]
    exact_mod_cast Finset.card_le_card (Finset.inter_subset_union)

/-! ### Helper lemmas: list update -/

lemma length_updateFirst {α : Type} (p : α → Bool) (f : α → α) (l : List α) :
    (updateFirst p f l).length = l.length := by
  induction l with
  | nil => rfl
  | cons x xs ih =>
    unfold updateFirst
    split <;> simp [ih]

/-- Each position of `updateFirst p f l` is the old element or its image. -/
lemma get_updateFirst {α : Type} (p : α → Bool) (f : α → α) :
    ∀ (l : List α) (i : ℕ) (h : i < l.length) (h2 : i < (updateFirst p f l).length),
      (updateFirst p f l).get ⟨i, h2⟩ = l.get ⟨i, h⟩
      ∨ (updateFirst p f l).get ⟨i, h2⟩ = f (l.get ⟨i, h⟩)
  | [], i, h, _ => by simp at h
  | x :: xs, i, h, h2 => by
    by_cases hpx : p x = true
    · cases i with
      | zero => right; simp [updateFirst, hpx]
      | succ j => left; simp [updateFirst, hpx]
    · cases i with
      | zero => left; simp [updateFirst, hpx]
      | succ j =>
        have hj : j < xs.length := Nat.lt_of_succ_lt_succ h
        have hj2 : j < (updateFirst p f xs).length := by
          rw [length_updateFirst]; exact hj
        have := get_updateFirst p f xs j hj hj2
        simpa [updateFirst, hpx] using this

/-- Updating the first `p`-match keeps it the first `p`-match, provided `f`
preserves `p`. -/
lemma find?_updateFirst {α : Type} (p : α → Bool) (f : α → α) :
    ∀ (l : List α) (x : α), l.find? p = some x → p (f x) = true →
      (updateFirst p f l).find? p = some (f x)
  | [], x, hfind, _ => by simp at hfind
  | y :: ys, x, hfind, hp => by
    by_cases hy : p y = true
    · rw [List.find?_cons_of_pos _ hy] at hfind
      obtain rfl : y = x := by simpa using hfind
      simp only [updateFirst, hy, if_true]
      exact List.find?_cons_of_pos _ hp
    · rw [List.find?_cons_of_neg _ (by simpa using hy)] at hfind
      simp only [updateFirst, hy, Bool.false_eq_true, if_false]
      rw [List.find?_cons_of_neg _ (by simpa using hy)]
      exact find?_updateFirst p f ys x hfind hp

/-- `find?` over an appended fresh document. -/
lemma find?_append_fresh {α : Type} (p : α → Bool) :
    ∀ (l : List α) (d : α), l.find? p = none → p d = true →
      (l ++ [d]).find? p = some d
  | [], d, _, hd => by simp [List.find?_cons, hd]
  | y :: ys, d, hl, hd => by
    have hy : ¬ p y = true := by
      intro hcon
      rw [List.find?_cons_of_pos _ hcon] at hl
      exact Option.noConfusion hl
    rw [List.find?_cons_of_neg _ hy] at hl
    rw [List.cons_append, List.find?_cons_of_neg _ hy]
    exact find?_append_fresh p ys d hl hd


/-! ### Helper lemmas: evaluating `cosine_sim` and `compute_match` -/

lemma cosine_sim_eval (xa xb : List ℚ)
    (hne : xa ≠ []) (hbe : xb ≠ []) (hlen : xa.length = xb.length)
    (hma : 0 < magSqQ xa) (hmb : 0 < magSqQ xb) :
    cosine_sim (xa.map Val.num) (xb.map Val.num)
      = some ((dotQ xa xb : ℝ)
          / (Real.sqrt (magSqQ xa : ℝ) * Real.sqrt (magSqQ xb : ℝ))) := by
  unfold cosine_sim
  rw [if_neg (by simp [hne, hbe, hlen])]
  rw [dotOpt_map_num, magSqOpt_map_num, magSqOpt_map_num]
  simp only [bind, Option.some_bind]
  rw [if_neg]
  push_neg
  constructor
  · exact Real.sqrt_ne_zero'.mpr (by exact_mod_cast hma)
  · exact Real.sqrt_ne_zero'.mpr (by exact_mod_cast hmb)

lemma cosine_sim_mag_zero (xa xb : List ℚ) (h : magSqQ xa = 0) :
    cosine_sim (xa.map Val.num) (xb.map Val.num) = some 0 := by
  unfold cosine_sim
  split
  · rfl
  · rw [dotOpt_map_num, magSqOpt_map_num, magSqOpt_map_num]
    simp only [bind, Option.some_bind]
    rw [if_pos]
    left
    rw [h]
    simp

lemma use_semantic_num_num (q c : ℚ) (qs cs : List Val) (qv cv : ProfileVectors)
    (hq : qv.possessed_vec = Val.num q :: qs) (hc : cv.possessed_vec = Val.num c :: cs) :
    use_semantic qv cv = true := by
  unfold use_semantic
  rw [hq, hc]
  rfl

/-- Evaluation of `compute_match` on the semantic (cosine) path. -/
lemma compute_match_semantic (qp : StudentProfile) (qv : ProfileVectors)
    (cp : StudentProfile) (cv : ProfileVectors) (w : Weights) (a b f : ℝ)
    (hsem : use_semantic qv cv = true)
    (ha : cosine_sim qv.needed_vec cv.possessed_vec = some a)
    (hb : cosine_sim cv.needed_vec qv.possessed_vec = some b)
    (hf : cosine_sim qv.focus_vec cv.focus_vec = some f) :
    compute_match qp qv cp cv w = some
      { score := (w.complementarity * ((0.5:ℝ) * a + (0.5:ℝ) * b) + w.focus * f
          + w.industry * ((jaccard_sim
              (match qp.project with | some pr => pr.industry.toFinset | none => ∅)
              (match cp.project with | some pr => pr.industry.toFinset | none => ∅) : ℚ) : ℝ))
        complementarity := ((0.5:ℝ) * a + (0.5:ℝ) * b)
        help_they_give_you := a
        help_you_give_them := b
        focus_overlap := f
        industry_overlap := ((jaccard_sim
            (match qp.project with | some pr => pr.industry.toFinset | none => ∅)
            (match cp.project with | some pr => pr.industry.toFinset | none => ∅) : ℚ) : ℝ)
        matched_skills := ((qv.needed_names ∩ cv.possessed_names).sort (· ≤ ·))
        skills_you_offer := ((cv.needed_names ∩ qv.possessed_names).sort (· ≤ ·)) } := by
  unfold compute_match
  rw [hsem]
  simp [ha, hb, hf, bind]

/-- Evaluation of `compute_match` on the keyword (Jaccard) fallback path. -/
lemma compute_match_fallback (qp : StudentProfile) (qv : ProfileVectors)
    (cp : StudentProfile) (cv : ProfileVectors) (w : Weights) (f : ℝ)
    (hsem : use_semantic qv cv = false)
    (hf : cosine_sim qv.focus_vec cv.focus_vec = some f) :
    compute_match qp qv cp cv w = some
      { score := (w.complementarity
            * ((0.5:ℝ) * ((jaccard_sim qv.needed_vec.toFinset cv.possessed_vec.toFinset : ℚ) : ℝ)
              + (0.5:ℝ) * ((jaccard_sim cv.needed_vec.toFinset qv.possessed_vec.toFinset : ℚ) : ℝ))
          + w.focus * f
          + w.industry * ((jaccard_sim
              (match qp.project with | some pr => pr.industry.toFinset | none => ∅)
              (match cp.project with | some pr => pr.industry.toFinset | none => ∅) : ℚ) : ℝ))
        complementarity := ((0.5:ℝ) * ((jaccard_sim qv.needed_vec.toFinset cv.possessed_vec.toFinset : ℚ) : ℝ)
          + (0.5:ℝ) * ((jaccard_sim cv.needed_vec.toFinset qv.possessed_vec.toFinset : ℚ) : ℝ))
        help_they_give_you := ((jaccard_sim qv.needed_vec.toFinset cv.possessed_vec.toFinset : ℚ) : ℝ)
        help_you_give_them := ((jaccard_sim cv.needed_vec.toFinset qv.possessed_vec.toFinset : ℚ) : ℝ)
        focus_overlap := f
        industry_overlap := ((jaccard_sim
            (match qp.project with | some pr => pr.industry.toFinset | none => ∅)
            (match cp.project with | some pr => pr.industry.toFinset | none => ∅) : ℚ) : ℝ)
        matched_skills := ((qv.needed_names ∩ cv.possessed_names).sort (· ≤ ·))
        skills_you_offer := ((cv.needed_names ∩ qv.possessed_names).sort (· ≤ ·)) } := by
  unfold compute_match
  rw [hsem]
  simp [hf, bind]


/-! ### Claim C2: score boundedness -/

lemma jaccard_cast_bounds {α : Type} [DecidableEq α] (A B : Finset α) :
    (0:ℝ) ≤ ((jaccard_sim A B : ℚ) : ℝ) ∧ ((jaccard_sim A B : ℚ) : ℝ) ≤ 1 := by
  constructor
  · exact_mod_cast jaccard_sim_nonneg A B
  · exact_mod_cast jaccard_sim_le_one A B

/-- The focus-indicator vector is a numeric 0/1 vector. -/
lemma focus_vec_eq (p : StudentProfile) :
    (vectorize_profile p).focus_vec
      = (FOCUS_AREA_ORDER.map fun fa => if fa ∈ p.focus_areas then (1:ℚ) else 0).map
          Val.num := by
  simp [vectorize_profile, List.map_map]

/-- C2, amended: with non-negative weights summing to 1, any total score
`compute_match` returns lies in `[-1, 1]`; it lies in `[0, 1]` whenever the
complementarity sub-score is non-negative (in particular on the Jaccard
fallback path).  The original claim's `[0, 1]` fails because cosine
similarity of embedding vectors can be negative (see
`compute_match_score_can_be_negative`). -/
theorem compute_match_score_bounds (qp cp : StudentProfile) (w : Weights)
    (ms : MatchScore)
    (hwc : 0 ≤ w.complementarity) (hwf : 0 ≤ w.focus) (hwi : 0 ≤ w.industry)
    (hsum : w.complementarity + w.focus + w.industry = 1)
    (hms : compute_match qp (vectorize_profile qp) cp (vectorize_profile cp) w
      = some ms) :
    (-1 ≤ ms.score ∧ ms.score ≤ 1) ∧
      (0 ≤ ms.complementarity → 0 ≤ ms.score ∧ ms.score ≤ 1) := by
  have hwc1 : w.complementarity ≤ 1 := by linarith
  obtain ⟨hind1, hind2⟩ := jaccard_cast_bounds
    (match qp.project with | some pr => pr.industry.toFinset | none => ∅)
    (match cp.project with | some pr => pr.industry.toFinset | none => ∅)
  have main : ∀ x y f : ℝ, -1 ≤ x → x ≤ 1 → -1 ≤ y → y ≤ 1 → 0 ≤ f → f ≤ 1 →
      ms.score = w.complementarity * ((0.5:ℝ) * x + (0.5:ℝ) * y) + w.focus * f
        + w.industry * ((jaccard_sim
            (match qp.project with | some pr => pr.industry.toFinset | none => ∅)
            (match cp.project with | some pr => pr.industry.toFinset | none => ∅) : ℚ) : ℝ) →
      ms.complementarity = (0.5:ℝ) * x + (0.5:ℝ) * y →
      (-1 ≤ ms.score ∧ ms.score ≤ 1) ∧
        (0 ≤ ms.complementarity → 0 ≤ ms.score ∧ ms.score ≤ 1) := by
    intro x y f h11 h12 h21 h22 hf1 hf2 hscore hcomp
    constructor
    · constructor
      · rw [hscore]
        nlinarith [mul_nonneg hwf hf1, mul_nonneg hwi hind1]
      · rw [hscore]
        nlinarith [mul_nonneg hwf (sub_nonneg.mpr hf2),
          mul_nonneg hwi (sub_nonneg.mpr hind2)]
    · intro hc
      rw [hcomp] at hc
      constructor
      · rw [hscore]
        nlinarith [mul_nonneg hwc hc, mul_nonneg hwf hf1, mul_nonneg hwi hind1]
      · rw [hscore]
        nlinarith [mul_nonneg hwf (sub_nonneg.mpr hf2),
          mul_nonneg hwi (sub_nonneg.mpr hind2)]
  have focus_bounds : ∀ f : ℝ,
      cosine_sim (vectorize_profile qp).focus_vec (vectorize_profile cp).focus_vec
        = some f → 0 ≤ f ∧ f ≤ 1 := by
    intro f hfo
    rw [focus_vec_eq, focus_vec_eq] at hfo
    refine ⟨cosine_sim_nonneg _ _ _ hfo ?_ ?_, (cosine_sim_bounds _ _ _ hfo).2⟩
    · intro q hq
      simp only [List.mem_map] at hq
      obtain ⟨fa, _, hfa⟩ := hq
      split at hfa <;> simp [← hfa]
    · intro q hq
      simp only [List.mem_map] at hq
      obtain ⟨fa, _, hfa⟩ := hq
      split at hfa <;> simp [← hfa]
  unfold compute_match at hms
  by_cases hsem : use_semantic (vectorize_profile qp) (vectorize_profile cp) = true
  · rw [if_pos hsem] at hms
    simp only [bind] at hms
    cases hA : cosine_sim (vectorize_profile qp).needed_vec
        (vectorize_profile cp).possessed_vec with
    | none => rw [hA] at hms; simp at hms
    | some a =>
    rw [hA] at hms
    cases hB : cosine_sim (vectorize_profile cp).needed_vec
        (vectorize_profile qp).possessed_vec with
    | none => rw [hB] at hms; simp at hms
    | some b =>
    rw [hB] at hms
    cases hF : cosine_sim (vectorize_profile qp).focus_vec
        (vectorize_profile cp).focus_vec with
    | none => rw [hF] at hms; simp at hms
    | some f =>
    rw [hF] at hms
    simp only [Option.some_bind, Option.pure_def, Option.some.injEq] at hms
    obtain ⟨hA1, hA2⟩ := cosine_sim_bounds _ _ _ hA
    obtain ⟨hB1, hB2⟩ := cosine_sim_bounds _ _ _ hB
    obtain ⟨hf1, hf2⟩ := focus_bounds f hF
    exact main a b f hA1 hA2 hB1 hB2 hf1 hf2 (by rw [← hms]) (by rw [← hms])
  · rw [if_neg hsem] at hms
    simp only [bind, Option.some_bind] at hms
    cases hF : cosine_sim (vectorize_profile qp).focus_vec
        (vectorize_profile cp).focus_vec with
    | none => rw [hF] at hms; simp at hms
    | some f =>
    rw [hF] at hms
    simp only [Option.some_bind, Option.pure_def, Option.some.injEq] at hms
    obtain ⟨hj1, hj2⟩ := jaccard_cast_bounds
      (vectorize_profile qp).needed_vec.toFinset
      (vectorize_profile cp).possessed_vec.toFinset
    obtain ⟨hk1, hk2⟩ := jaccard_cast_bounds
      (vectorize_profile cp).needed_vec.toFinset
      (vectorize_profile qp).possessed_vec.toFinset
    obtain ⟨hf1, hf2⟩ := focus_bounds f hF
    exact main _ _ f (by linarith) hj2 (by linarith) hk2 hf1 hf2
      (by rw [← hms]) (by rw [← hms])

/-- A throwaway identity record for concrete test profiles. -/
def identW : Identity :=
  { full_name := "w", email := "w@example.com", university := "w"
    graduation_year := 2026, major := [] }

/-- Query profile for the C2 counterexample: unit embedding vectors. -/
def c2q : StudentProfile :=
  { uid := "q", created_at := 0, identity := identW, focus_areas := []
    rag := some { possessed_vector := [Val.num 1], needed_vector := [Val.num 1] }
    skills := {} }

/-- Candidate profile for the C2 counterexample: opposite embedding vectors. -/
def c2c : StudentProfile :=
  { uid := "c", created_at := 0, identity := identW, focus_areas := []
    rag := some { possessed_vector := [Val.num (-1)], needed_vector := [Val.num (-1)] }
    skills := {} }

lemma cosine_one_neg_one : cosine_sim [Val.num 1] [Val.num (-1)] = some (-1) := by
  have h := cosine_sim_eval [1] [-1] (by simp) (by simp) (by simp)
    (by norm_num [magSqQ]) (by norm_num [magSqQ])
  simp only [List.map] at h
  rw [h]
  norm_num [dotQ, magSqQ, Real.sqrt_one]

lemma cosine_neg_one_one : cosine_sim [Val.num (-1)] [Val.num 1] = some (-1) := by
  have h := cosine_sim_eval [-1] [1] (by simp) (by simp) (by simp)
    (by norm_num [magSqQ]) (by norm_num [magSqQ])
  simp only [List.map] at h
  rw [h]
  norm_num [dotQ, magSqQ, Real.sqrt_one]

lemma cosine_zeros5 :
    cosine_sim ([(0:ℚ), 0, 0, 0, 0].map Val.num) ([(0:ℚ), 0, 0, 0, 0].map Val.num)
      = some 0 :=
  cosine_sim_mag_zero _ _ (by norm_num [magSqQ])

/-- C2, counterexample: with the default weights (non-negative, summing to 1)
there is a profile pair on which `compute_match` returns total score
`-13/20 ∉ [0, 1]`. -/
theorem compute_match_score_can_be_negative :
    (compute_match c2q (vectorize_profile c2q) c2c (vectorize_profile c2c) {}).map
        MatchScore.score = some (-(13/20) : ℝ)
      ∧ ¬ ((0:ℝ) ≤ -(13/20)) := by
  constructor
  · have hsem : use_semantic (vectorize_profile c2q) (vectorize_profile c2c) = true := by
      apply use_semantic_num_num 1 (-1) [] []
      · simp [vectorize_profile, c2q]
      · simp [vectorize_profile, c2c]
    have hfoc : cosine_sim (vectorize_profile c2q).focus_vec
        (vectorize_profile c2c).focus_vec = some 0 := by
      rw [focus_vec_eq, focus_vec_eq]
      simpa [c2q, c2c, FOCUS_AREA_ORDER] using cosine_zeros5
    have ha : cosine_sim (vectorize_profile c2q).needed_vec
        (vectorize_profile c2c).possessed_vec = some (-1) := by
      simpa [vectorize_profile, c2q, c2c] using cosine_one_neg_one
    have hb : cosine_sim (vectorize_profile c2c).needed_vec
        (vectorize_profile c2q).possessed_vec = some (-1) := by
      simpa [vectorize_profile, c2q, c2c] using cosine_neg_one_one
    rw [compute_match_semantic c2q _ c2c _ {} (-1) (-1) 0 hsem ha hb hfoc]
    simp only [Option.map_some]
    simp [c2q, c2c, jaccard_sim, Weights]
    norm_num
  · norm_num

/-- Witness profiles for the bounds theorem: profiles with no data at all. -/
def pW1 : StudentProfile :=
  { uid := "w1", created_at := 0, identity := identW, focus_areas := [], skills := {} }

def pW2 : StudentProfile :=
  { uid := "w2", created_at := 0, identity := identW, focus_areas := [], skills := {} }

/-- The score `compute_match` yields on the empty witness profiles. -/
def msW : MatchScore :=
  { score := 0.65 * ((0.5:ℝ) * 0 + (0.5:ℝ) * 0) + 0.20 * 0 + 0.15 * 0
    complementarity := (0.5:ℝ) * 0 + (0.5:ℝ) * 0
    help_they_give_you := 0, help_you_give_them := 0
    focus_overlap := 0, industry_overlap := 0
    matched_skills := [], skills_you_offer := [] }

lemma compute_match_pW :
    compute_match pW1 (vectorize_profile pW1) pW2 (vectorize_profile pW2) {}
      = some msW := by
  have hsem : use_semantic (vectorize_profile pW1) (vectorize_profile pW2) = false := by
    simp [use_semantic, vectorize_profile, pW1, pW2]
  have hfoc : cosine_sim (vectorize_profile pW1).focus_vec
      (vectorize_profile pW2).focus_vec = some 0 := by
    rw [focus_vec_eq, focus_vec_eq]
    simpa [pW1, pW2, FOCUS_AREA_ORDER] using cosine_zeros5
  rw [compute_match_fallback pW1 _ pW2 _ {} 0 hsem hfoc]
  simp [pW1, pW2, vectorize_profile, jaccard_sim, msW, Weights]

theorem compute_match_score_bounds_witness :
    (-1 ≤ msW.score ∧ msW.score ≤ 1) ∧
      (0 ≤ msW.complementarity → 0 ≤ msW.score ∧ msW.score ≤ 1) :=
  compute_match_score_bounds pW1 pW2 {} msW (by norm_num [Weights])
    (by norm_num [Weights]) (by norm_num [Weights]) (by norm_num [Weights])
    compute_match_pW


/-! ### Claim C3: cosine/Jaccard dispatch -/

lemma cosine_sim_ne_length (a b : List Val) (h : a.length ≠ b.length) :
    cosine_sim a b = some 0 := by
  unfold cosine_sim
  rw [if_pos (Or.inr (Or.inr h))]

lemma cosine_one_one : cosine_sim [Val.num 1] [Val.num 1] = some 1 := by
  have h := cosine_sim_eval [1] [1] (by simp) (by simp) (by simp)
    (by norm_num [magSqQ]) (by norm_num [magSqQ])
  simp only [List.map] at h
  rw [h]
  norm_num [dotQ, magSqQ, Real.sqrt_one]

/-- Modelled from the claim's words: the *literal skill-name sets* of a
profile, over which the claimed Jaccard fallback is computed. -/
def needed_names_lit (p : StudentProfile) : Finset String :=
  (p.skills.needed.map fun s => s.name).toFinset

/-- Modelled from the claim's words: the literal possessed-skill-name set. -/
def possessed_names_lit (p : StudentProfile) : Finset String :=
  (p.skills.possessed.map fun s => s.name).toFinset

/-- Query profile for the C3 counterexample: a 2-dimensional needed vector,
needing the skill "react". -/
def c3q : StudentProfile :=
  { uid := "q3", created_at := 0, identity := identW, focus_areas := []
    rag := some { possessed_vector := [Val.num 1], needed_vector := [Val.num 1, Val.num 0] }
    skills := { needed := [{ name := "react", priority := .must_have }] } }

/-- Candidate profile for the C3 counterexample: 1-dimensional vectors,
possessing the skill "react". -/
def c3c : StudentProfile :=
  { uid := "c3", created_at := 0, identity := identW, focus_areas := []
    rag := some { possessed_vector := [Val.num 1], needed_vector := [Val.num 1] }
    skills := { possessed := [{ name := "react", source := .questionnaire }] } }

/-- C3, counterexample: on a pair whose first directional comparison has
numeric vectors of unequal dimensionality (2 vs 1), the scorer returns
`help_they_give_you = 0` straight from `_cosine_sim`'s length guard, whereas
the claimed Jaccard fallback over the literal skill-name sets
({"react"} vs {"react"}) is `1`: mismatched dimensions do not route to the
Jaccard fallback. -/
theorem compute_match_unequal_dims_score_zero :
    (compute_match c3q (vectorize_profile c3q) c3c (vectorize_profile c3c) {}).map
        MatchScore.help_they_give_you = some 0
    ∧ jaccard_sim (needed_names_lit c3q) (possessed_names_lit c3c) = 1
    ∧ (vectorize_profile c3q).needed_vec.length
        ≠ (vectorize_profile c3c).possessed_vec.length := by
  refine ⟨?_, ?_, by decide⟩
  case refine_2 =>
    have h1 : needed_names_lit c3q = {"react"} := by
      simp [needed_names_lit, c3q]
    have h2 : possessed_names_lit c3c = {"react"} := by
      simp [possessed_names_lit, c3c]
    rw [h1, h2]
    norm_num [jaccard_sim]
  have hsem : use_semantic (vectorize_profile c3q) (vectorize_profile c3c) = true := by
    apply use_semantic_num_num 1 1 [] []
    · simp [vectorize_profile, c3q]
    · simp [vectorize_profile, c3c]
  have hfoc : cosine_sim (vectorize_profile c3q).focus_vec
      (vectorize_profile c3c).focus_vec = some 0 := by
    rw [focus_vec_eq, focus_vec_eq]
    simpa [c3q, c3c, FOCUS_AREA_ORDER] using cosine_zeros5
  have ha : cosine_sim (vectorize_profile c3q).needed_vec
      (vectorize_profile c3c).possessed_vec = some 0 :=
    cosine_sim_ne_length _ _ (by decide)
  have hb : cosine_sim (vectorize_profile c3c).needed_vec
      (vectorize_profile c3q).possessed_vec = some 1 := by
    simpa [vectorize_profile, c3q, c3c] using cosine_one_one
  rw [compute_match_semantic c3q _ c3c _ {} 0 1 0 hsem ha hb hfoc]
  simp

/-- C3, amended: the cosine/Jaccard choice is made *globally per profile
pair*, not per directional comparison: cosine mode is used for both
comparisons exactly when both profiles' possessed vectors are non-empty with
a numeric first element; otherwise both comparisons are Jaccard over the raw
vector contents as sets.  In cosine mode a comparison of unequal-length
vectors scores `0.0` (from `_cosine_sim`'s guard) instead of falling back to
Jaccard. -/
theorem compute_match_dispatch (qp cp : StudentProfile) (qv cv : ProfileVectors)
    (w : Weights) :
    (use_semantic qv cv = false →
      ∀ ms, compute_match qp qv cp cv w = some ms →
        ms.help_they_give_you
            = ((jaccard_sim qv.needed_vec.toFinset cv.possessed_vec.toFinset : ℚ) : ℝ)
          ∧ ms.help_you_give_them
            = ((jaccard_sim cv.needed_vec.toFinset qv.possessed_vec.toFinset : ℚ) : ℝ))
    ∧ (use_semantic qv cv = true →
      ∀ a b ms, cosine_sim qv.needed_vec cv.possessed_vec = some a →
        cosine_sim cv.needed_vec qv.possessed_vec = some b →
        compute_match qp qv cp cv w = some ms →
        ms.help_they_give_you = a ∧ ms.help_you_give_them = b)
    ∧ (use_semantic qv cv = true →
      qv.needed_vec.length ≠ cv.possessed_vec.length →
      ∀ ms, compute_match qp qv cp cv w = some ms → ms.help_they_give_you = 0)
    ∧ (use_semantic qv cv = true ↔
        ∃ q qs c cs, qv.possessed_vec = Val.num q :: qs
          ∧ cv.possessed_vec = Val.num c :: cs) := by
  have main : ∀ hsem : use_semantic qv cv = true,
      ∀ a b ms, cosine_sim qv.needed_vec cv.possessed_vec = some a →
        cosine_sim cv.needed_vec qv.possessed_vec = some b →
        compute_match qp qv cp cv w = some ms →
        ms.help_they_give_you = a ∧ ms.help_you_give_them = b := by
    intro hsem a b ms hA hB hms
    unfold compute_match at hms
    rw [if_pos hsem] at hms
    simp only [bind] at hms
    rw [hA, hB] at hms
    cases hF : cosine_sim qv.focus_vec cv.focus_vec with
    | none => rw [hF] at hms; simp at hms
    | some f =>
      rw [hF] at hms
      simp only [Option.some_bind, Option.pure_def, Option.some.injEq] at hms
      rw [← hms]
      exact ⟨rfl, rfl⟩
  refine ⟨?_, main, ?_, ?_⟩
  · intro hsem ms hms
    unfold compute_match at hms
    rw [if_neg (by simp [hsem])] at hms
    simp only [bind, Option.some_bind] at hms
    cases hF : cosine_sim qv.focus_vec cv.focus_vec with
    | none => rw [hF] at hms; simp at hms
    | some f =>
      rw [hF] at hms
      simp only [Option.some_bind, Option.pure_def, Option.some.injEq] at hms
      rw [← hms]
      exact ⟨rfl, rfl⟩
  · intro hsem hlen ms hms
    cases hB : cosine_sim cv.needed_vec qv.possessed_vec with
    | none =>
      unfold compute_match at hms
      rw [if_pos hsem] at hms
      simp only [bind] at hms
      rw [cosine_sim_ne_length _ _ hlen, hB] at hms
      simp at hms
    | some b =>
      exact (main hsem 0 b ms (cosine_sim_ne_length _ _ hlen) hB hms).1
  · constructor
    · intro hsem
      unfold use_semantic at hsem
      match hq : qv.possessed_vec, hc : cv.possessed_vec with
      | [], _ => rw [hq] at hsem; simp at hsem
      | q :: qs, [] => rw [hq, hc] at hsem; simp at hsem
      | q :: qs, c :: cs =>
        rw [hq, hc] at hsem
        simp only [Bool.and_eq_true] at hsem
        obtain ⟨hq1, hc1⟩ := hsem
        cases q with
        | num x => cases c with
          | num y => exact ⟨x, qs, y, cs, rfl, rfl⟩
          | str _ => simp [Val.isNum] at hc1
        | str _ => simp [Val.isNum] at hq1
    · rintro ⟨q, qs, c, cs, hq, hc⟩
      exact use_semantic_num_num q c qs cs qv cv hq hc

theorem compute_match_dispatch_witness :
    msW.help_they_give_you
        = ((jaccard_sim (vectorize_profile pW1).needed_vec.toFinset
            (vectorize_profile pW2).possessed_vec.toFinset : ℚ) : ℝ)
      ∧ msW.help_you_give_them
        = ((jaccard_sim (vectorize_profile pW2).needed_vec.toFinset
            (vectorize_profile pW1).possessed_vec.toFinset : ℚ) : ℝ) :=
  (compute_match_dispatch pW1 pW2 (vectorize_profile pW1) (vectorize_profile pW2) {}).1
    (by simp [use_semantic, vectorize_profile, pW1, pW2]) msW compute_match_pW


/-! ### Claim C7: `find_matches` contract -/

/-- Soundness of the candidate loop: every kept entry comes from a candidate,
carries its own score, and clears the threshold. -/
lemma score_candidates_mem (q : StudentProfile) (qv : ProfileVectors) (w : Weights)
    (th : ℝ) :
    ∀ (l : List StudentProfile) (r : List (StudentProfile × MatchScore)),
      score_candidates q qv w th l = some r →
      ∀ y ∈ r, y.1 ∈ l
        ∧ compute_match q qv y.1 (vectorize_profile y.1) w = some y.2
        ∧ th ≤ y.2.score
  | [], r, hr => by
    unfold score_candidates at hr
    obtain rfl := Option.some_injective _ hr
    intro y hy
    simp at hy
  | cand :: rest, r, hr => by
    unfold score_candidates at hr
    simp only [bind] at hr
    cases hms : compute_match q qv cand (vectorize_profile cand) w with
    | none => rw [hms] at hr; simp at hr
    | some ms =>
    rw [hms] at hr
    cases htail : score_candidates q qv w th rest with
    | none => rw [htail] at hr; simp at hr
    | some tail =>
    rw [htail] at hr
    simp only [Option.some_bind, Option.pure_def, Option.some.injEq] at hr
    have ihtail := score_candidates_mem q qv w th rest tail htail
    intro y hy
    rw [← hr] at hy
    by_cases hth : ms.score ≥ th
    · rw [if_pos (by simpa using hth)] at hy
      rcases List.mem_cons.mp hy with hy1 | hy2
      · subst hy1
        exact ⟨by simp, hms, hth⟩
      · obtain ⟨h1, h2, h3⟩ := ihtail y hy2
        exact ⟨by simp [h1], h2, h3⟩
    · rw [if_neg (by simpa using hth)] at hy
      obtain ⟨h1, h2, h3⟩ := ihtail y hy
      exact ⟨by simp [h1], h2, h3⟩

/-- Completeness of the candidate loop: every candidate that scores at or
above the threshold is kept. -/
lemma score_candidates_complete (q : StudentProfile) (qv : ProfileVectors)
    (w : Weights) (th : ℝ) :
    ∀ (l : List StudentProfile) (r : List (StudentProfile × MatchScore)),
      score_candidates q qv w th l = some r →
      ∀ cand ∈ l, ∀ ms,
        compute_match q qv cand (vectorize_profile cand) w = some ms →
        th ≤ ms.score → (cand, ms) ∈ r
  | [], r, hr => by
    intro cand hcand
    simp at hcand
  | c0 :: rest, r, hr => by
    unfold score_candidates at hr
    simp only [bind] at hr
    cases hms : compute_match q qv c0 (vectorize_profile c0) w with
    | none => rw [hms] at hr; simp at hr
    | some ms0 =>
    rw [hms] at hr
    cases htail : score_candidates q qv w th rest with
    | none => rw [htail] at hr; simp at hr
    | some tail =>
    rw [htail] at hr
    simp only [Option.some_bind, Option.pure_def, Option.some.injEq] at hr
    intro cand hcand ms hcm hth
    rcases List.mem_cons.mp hcand with hc1 | hc2
    · subst hc1
      rw [hcm] at hms
      obtain rfl := (Option.some_injective _ hms).symm
      rw [← hr, if_pos (by simpa using hth)]
      exact List.mem_cons_self _ _
    · have htl := score_candidates_complete q qv w th rest tail htail cand hc2 ms hcm hth
      rw [← hr]
      by_cases hth0 : ms0.score ≥ th
      · rw [if_pos (by simpa using hth0)]
        exact List.mem_cons_of_mem _ htl
      · rw [if_neg (by simpa using hth0)]
        exact htl

/-- C7: `find_matches` returns the `(None, 0, [])` sentinel when the query
uid is absent; otherwise it returns the query profile, the *full* candidate
pool size (every stored profile except the query's uid, regardless of
filtering and truncation), and a ranked list that (a) has at most `limit`
entries, (b) contains only non-query candidates scoring at least the
threshold (inclusive), (c) is sorted by total score descending, and (d)
contains every candidate scoring at least the threshold unless cut by the
`limit` truncation. -/
theorem find_matches_spec (profiles : List StudentProfile) (query_uid : String)
    (limit : ℕ) (threshold : ℝ) (w : Weights) :
    (profiles.find? (fun p => p.uid == query_uid) = none →
      find_matches profiles query_uid limit threshold w = some (none, 0, []))
    ∧ (∀ q res, profiles.find? (fun p => p.uid == query_uid) = some q →
        find_matches profiles query_uid limit threshold w = some res →
        res.1 = some q
        ∧ res.2.1 = (profiles.filter fun p => !(p.uid == query_uid)).length
        ∧ res.2.2.length ≤ limit
        ∧ (∀ x ∈ res.2.2, ¬ x.1.uid = query_uid ∧ threshold ≤ x.2.score)
        ∧ List.Pairwise (fun a b => b.2.score ≤ a.2.score) res.2.2
        ∧ (∀ cand ms, cand ∈ profiles → ¬ cand.uid = query_uid →
            compute_match q (vectorize_profile q) cand (vectorize_profile cand) w
              = some ms →
            threshold ≤ ms.score →
            (res.2.2.length = limit ∨ (cand, ms) ∈ res.2.2))) := by
  constructor
  · intro hnone
    unfold find_matches
    rw [hnone]
    rfl
  · intro q res hfind hres
    unfold find_matches at hres
    rw [hfind] at hres
    simp only [bind] at hres
    cases hsc : score_candidates q (vectorize_profile q) w threshold
        (profiles.filter fun p => !(p.uid == query_uid)) with
    | none => rw [hsc] at hres; simp at hres
    | some results =>
    rw [hsc] at hres
    simp only [Option.some_bind, Option.pure_def, Option.some.injEq] at hres
    obtain rfl := hres.symm
    refine ⟨rfl, rfl, ?_, ?_, ?_, ?_⟩
    · rw [List.length_take]
      exact min_le_left _ _
    · intro x hx
      have hx1 : x ∈ (results.mergeSort fun a b => decide (b.2.score ≤ a.2.score)) :=
        List.mem_of_mem_take hx
      have hx2 : x ∈ results := List.mem_mergeSort.mp hx1
      obtain ⟨hmem, _, hth⟩ :=
        score_candidates_mem q (vectorize_profile q) w threshold _ _ hsc x hx2
      refine ⟨?_, hth⟩
      have := (List.mem_filter.mp hmem).2
      simp only [Bool.not_eq_true', beq_eq_false_iff_ne] at this
      exact this
    · have hsorted := @List.sorted_mergeSort (StudentProfile × MatchScore)
        (fun a b => decide (b.2.score ≤ a.2.score))
        (fun a b c hab hbc => by
          simp only [decide_eq_true_eq] at hab hbc ⊢
          exact le_trans hbc hab)
        (fun a b => by
          simp only [Bool.or_eq_true, decide_eq_true_eq]
          exact le_total b.2.score a.2.score)
        results
      have := List.Pairwise.sublist (List.take_sublist limit _) hsorted
      exact this.imp fun h => by simpa using h
    · intro cand ms hcand hne hcm hth
      have hcand2 : cand ∈ profiles.filter fun p => !(p.uid == query_uid) := by
        rw [List.mem_filter]
        exact ⟨hcand, by simp [hne]⟩
      have hin : (cand, ms) ∈ results :=
        score_candidates_complete q (vectorize_profile q) w threshold _ _ hsc
          cand hcand2 ms hcm hth
      have hin2 : (cand, ms) ∈ (results.mergeSort fun a b =>
          decide (b.2.score ≤ a.2.score)) := List.mem_mergeSort.mpr hin
      by_cases hlen : (results.mergeSort fun a b =>
          decide (b.2.score ≤ a.2.score)).length ≤ limit
      · right
        rw [List.take_of_length_le hlen]
        exact hin2
      · left
        rw [List.length_take]
        exact min_eq_left (le_of_not_le hlen)


lemma find_matches_eval_w :
    find_matches [pW1, pW2] "w1" 10 (99/100 : ℝ) {} = some (some pW1, 1, []) := by
  have hfind : ([pW1, pW2].find? fun p => p.uid == "w1") = some pW1 := by
    simp [List.find?, pW1]
  have hfilter : ([pW1, pW2].filter fun p => !(p.uid == "w1")) = [pW2] := by
    simp [List.filter, pW1, pW2]
  have hsc : score_candidates pW1 (vectorize_profile pW1) {} (99/100 : ℝ) [pW2]
      = some [] := by
    unfold score_candidates
    rw [compute_match_pW]
    unfold score_candidates
    simp only [bind, Option.some_bind, Option.pure_def, Option.some.injEq]
    rw [if_neg]
    simp only [decide_eq_true_eq, ge_iff_le]
    norm_num [msW]
  unfold find_matches
  rw [hfind, hfilter]
  simp only [bind]
  rw [hsc]
  simp [List.mergeSort]

/-- Witness for `find_matches_spec`: threshold `0.99` with a single
non-matching candidate — the ranked list is empty but the candidate count is
still the full pool size `1`. -/
theorem find_matches_spec_witness :
    find_matches [pW1, pW2] "w1" 10 (99/100 : ℝ) {} = some (some pW1, 1, [])
      ∧ (1 : ℕ) = ([pW1, pW2].filter fun p => !(p.uid == "w1")).length
      ∧ ([] : List (StudentProfile × MatchScore)).length ≤ 10 := by
  have hfind : ([pW1, pW2].find? fun p => p.uid == "w1") = some pW1 := by
    simp [List.find?, pW1]
  have h := (find_matches_spec [pW1, pW2] "w1" 10 (99/100 : ℝ) {}).2
    pW1 (some pW1, 1, []) hfind find_matches_eval_w
  exact ⟨find_matches_eval_w, h.2.1, h.2.2.1⟩


/-! ### Claim C8: `accept_connection` contract -/

/-- C8: `accept_connection` returns the not-found sentinel iff the record
does not exist or `uid` is neither stored participant; otherwise it sets
exactly the acceptance flag of `uid`'s position (plus `updated_at`) and
returns the updated record. -/
theorem accept_connection_spec (now : ℤ) (st : ServerState)
    (connection_id uid : String) :
    (accept_connection now st connection_id uid = none ↔
      (st.connections.find? (fun c => c.connection_id == connection_id) = none
        ∨ ∃ r, st.connections.find? (fun c => c.connection_id == connection_id) = some r
            ∧ uid ≠ r.uid1 ∧ uid ≠ r.uid2))
    ∧ (∀ r, st.connections.find? (fun c => c.connection_id == connection_id) = some r →
        uid = r.uid1 →
        accept_connection now st connection_id uid = some
          ({ r with uid1_accepted := true, updated_at := some now },
           { st with connections :=
              (updateFirst (fun c => c.connection_id == connection_id)
                (fun c => { c with uid1_accepted := true, updated_at := some now })
                st.connections) }))
    ∧ (∀ r, st.connections.find? (fun c => c.connection_id == connection_id) = some r →
        uid ≠ r.uid1 → uid = r.uid2 →
        accept_connection now st connection_id uid = some
          ({ r with uid2_accepted := true, updated_at := some now },
           { st with connections :=
              (updateFirst (fun c => c.connection_id == connection_id)
                (fun c => { c with uid2_accepted := true, updated_at := some now })
                st.connections) })) := by
  refine ⟨⟨?_, ?_⟩, ?_, ?_⟩
  · intro hnone
    cases hfind : st.connections.find? (fun c => c.connection_id == connection_id) with
    | none => exact Or.inl rfl
    | some conn =>
      unfold accept_connection at hnone
      rw [hfind] at hnone
      simp only [] at hnone
      right
      refine ⟨conn, rfl, ?_, ?_⟩
      · intro h1
        rw [if_pos (by simp [h1])] at hnone
        unfold findOneAndUpdate at hnone
        rw [hfind] at hnone
        simp at hnone
      · intro h2
        by_cases h1 : uid == conn.uid1
        · rw [if_pos h1] at hnone
          unfold findOneAndUpdate at hnone
          rw [hfind] at hnone
          simp at hnone
        · rw [if_neg h1, if_pos (by simp [h2])] at hnone
          unfold findOneAndUpdate at hnone
          rw [hfind] at hnone
          simp at hnone
  · intro h
    unfold accept_connection
    rcases h with hnone | ⟨r, hr, h1, h2⟩
    · rw [hnone]
    · rw [hr]
      simp only []
      rw [if_neg (by simp [beq_iff_eq, h1]), if_neg (by simp [beq_iff_eq, h2])]
  · intro r hfind hu
    unfold accept_connection
    rw [hfind]
    simp only []
    rw [if_pos (by simp [hu])]
    unfold findOneAndUpdate
    rw [hfind]
    rfl
  · intro r hfind h1 hu
    unfold accept_connection
    rw [hfind]
    simp only []
    rw [if_neg (by simp [beq_iff_eq, h1]), if_pos (by simp [hu])]
    unfold findOneAndUpdate
    rw [hfind]
    rfl

/-- Witness connection for the accept/monotonicity claims. -/
def cW0 : Connection :=
  { connection_id := "a_b", uid1 := "a", uid2 := "b", uid1_accepted := true
    match_percentage := 80, created_at := 0 }

def stW0 : ServerState := { connections := [cW0] }

theorem accept_connection_spec_witness :
    accept_connection 5 stW0 "a_b" "b" = some
      ({ cW0 with uid2_accepted := true, updated_at := some 5 },
       { stW0 with connections :=
          (updateFirst (fun c => c.connection_id == "a_b")
            (fun c => { c with uid2_accepted := true, updated_at := some 5 })
            stW0.connections) }) :=
  (accept_connection_spec 5 stW0 "a_b" "b").2.2 cW0 (by simp [stW0, cW0])
    (by simp [cW0]) (by simp [cW0])

/-! ### Claim C6: acceptance flags are monotone -/

lemma updateFirst_flags_monotone (p : Connection → Bool) (f : Connection → Connection)
    (hf1 : ∀ c, c.uid1_accepted = true → (f c).uid1_accepted = true)
    (hf2 : ∀ c, c.uid2_accepted = true → (f c).uid2_accepted = true)
    (l : List Connection) (i : ℕ) (h1 : i < l.length)
    (h2 : i < (updateFirst p f l).length) :
    ((l.get ⟨i, h1⟩).uid1_accepted = true →
      ((updateFirst p f l).get ⟨i, h2⟩).uid1_accepted = true)
    ∧ ((l.get ⟨i, h1⟩).uid2_accepted = true →
      ((updateFirst p f l).get ⟨i, h2⟩).uid2_accepted = true) := by
  rcases get_updateFirst p f l i h1 h2 with h | h
  · rw [h]; exact ⟨id, id⟩
  · rw [h]; exact ⟨hf1 _, hf2 _⟩

/-- Case analysis of a successful `accept_connection`. -/
lemma accept_connection_cases (now : ℤ) (st : ServerState) (cid uid : String)
    (conn : Connection) (st2 : ServerState)
    (h : accept_connection now st cid uid = some (conn, st2)) :
    ∃ r, st.connections.find? (fun c => c.connection_id == cid) = some r
      ∧ ((uid = r.uid1
            ∧ conn = { r with uid1_accepted := true, updated_at := some now }
            ∧ st2 = { st with connections := (updateFirst (fun c => c.connection_id == cid) (fun c => { c with uid1_accepted := true, updated_at := some now }) st.connections) })
        ∨ (uid ≠ r.uid1 ∧ uid = r.uid2
            ∧ conn = { r with uid2_accepted := true, updated_at := some now }
            ∧ st2 = { st with connections := (updateFirst (fun c => c.connection_id == cid) (fun c => { c with uid2_accepted := true, updated_at := some now }) st.connections) })) := by
  cases hfind : st.connections.find? (fun c => c.connection_id == cid) with
  | none =>
    unfold accept_connection at h
    rw [hfind] at h
    simp at h
  | some r =>
    refine ⟨r, rfl, ?_⟩
    by_cases hu1 : uid = r.uid1
    · left
      have := (accept_connection_spec now st cid uid).2.1 r hfind hu1
      rw [this] at h
      obtain ⟨h1, h2⟩ := Prod.mk.injEq _ _ _ _ |>.mp (Option.some_injective _ h)
      exact ⟨hu1, h1.symm, h2.symm⟩
    · right
      by_cases hu2 : uid = r.uid2
      · have := (accept_connection_spec now st cid uid).2.2 r hfind hu1 hu2
        rw [this] at h
        obtain ⟨h1, h2⟩ := Prod.mk.injEq _ _ _ _ |>.mp (Option.some_injective _ h)
        exact ⟨hu1, hu2, h1.symm, h2.symm⟩
      · have : accept_connection now st cid uid = none :=
          (accept_connection_spec now st cid uid).1.2 (Or.inr ⟨r, hfind, hu1, hu2⟩)
        rw [this] at h
        exact absurd h (by simp)

/-- C6: none of the three mutating operations on a stored connection —
`accept_connection`, `update_connection_summaries`,
`update_nearby_notified_at` — ever resets an acceptance flag that was true:
at every position of the collection, a true flag stays true. -/
theorem acceptance_flags_monotone (now : ℤ) (st : ServerState)
    (connection_id uid : String) (s1 s2 nm : Option String) :
    (∀ conn st2, accept_connection now st connection_id uid = some (conn, st2) →
      ∀ i (h1 : i < st.connections.length) (h2 : i < st2.connections.length),
        ((st.connections.get ⟨i, h1⟩).uid1_accepted = true →
          (st2.connections.get ⟨i, h2⟩).uid1_accepted = true)
        ∧ ((st.connections.get ⟨i, h1⟩).uid2_accepted = true →
          (st2.connections.get ⟨i, h2⟩).uid2_accepted = true))
    ∧ (∀ res st2, update_connection_summaries st connection_id s1 s2 nm now = (res, st2) →
      ∀ i (h1 : i < st.connections.length) (h2 : i < st2.connections.length),
        ((st.connections.get ⟨i, h1⟩).uid1_accepted = true →
          (st2.connections.get ⟨i, h2⟩).uid1_accepted = true)
        ∧ ((st.connections.get ⟨i, h1⟩).uid2_accepted = true →
          (st2.connections.get ⟨i, h2⟩).uid2_accepted = true))
    ∧ (∀ i (h1 : i < st.connections.length)
        (h2 : i < (update_nearby_notified_at st connection_id now).connections.length),
        ((st.connections.get ⟨i, h1⟩).uid1_accepted = true →
          ((update_nearby_notified_at st connection_id now).connections.get
            ⟨i, h2⟩).uid1_accepted = true)
        ∧ ((st.connections.get ⟨i, h1⟩).uid2_accepted = true →
          ((update_nearby_notified_at st connection_id now).connections.get
            ⟨i, h2⟩).uid2_accepted = true)) := by
  refine ⟨?_, ?_, ?_⟩
  · intro conn st2 hacc i h1 h2
    obtain ⟨r, hfind, hcase⟩ :=
      accept_connection_cases now st connection_id uid conn st2 hacc
    rcases hcase with ⟨_, _, hst2⟩ | ⟨_, _, _, hst2⟩
    · subst hst2
      exact updateFirst_flags_monotone (fun c => c.connection_id == connection_id)
        (fun c => { c with uid1_accepted := true, updated_at := some now })
        (fun c _ => rfl) (fun c h => h) st.connections i h1 h2
    · subst hst2
      exact updateFirst_flags_monotone (fun c => c.connection_id == connection_id)
        (fun c => { c with uid2_accepted := true, updated_at := some now })
        (fun c h => h) (fun c _ => rfl) st.connections i h1 h2
  · intro res st2 hupd i h1 h2
    unfold update_connection_summaries findOneAndUpdate at hupd
    cases hfind : st.connections.find? (fun c => c.connection_id == connection_id) with
    | none =>
      rw [hfind] at hupd
      have hst2 : st2 = st := by
        have := (Prod.mk.injEq _ _ _ _ |>.mp hupd).2
        rw [← this]
      subst hst2
      exact ⟨id, id⟩
    | some r =>
      rw [hfind] at hupd
      have hst2 := (Prod.mk.injEq _ _ _ _ |>.mp hupd).2
      subst hst2
      exact updateFirst_flags_monotone (fun c => c.connection_id == connection_id)
        (fun c => { c with uid1_summary := s1, uid2_summary := s2, notification_message := nm, updated_at := some now })
        (fun c h => h) (fun c h => h) st.connections i h1 h2
  · intro i h1 h2
    exact updateFirst_flags_monotone (fun c => c.connection_id == connection_id)
      (fun c => { c with last_nearby_notified_at := some now })
      (fun c h => h) (fun c h => h) st.connections i h1 h2

def stW1 : ServerState :=
  { connections := [{ cW0 with uid2_accepted := true, updated_at := some 5 }] }

theorem acceptance_flags_monotone_witness :
    (stW1.connections.get ⟨0, by simp [stW1]⟩).uid1_accepted = true := by
  have hacc : accept_connection 5 stW0 "a_b" "b" = some
      ({ cW0 with uid2_accepted := true, updated_at := some 5 }, stW1) := by
    rw [(accept_connection_spec 5 stW0 "a_b" "b").2.2 cW0 (by simp [stW0, cW0])
      (by simp [cW0]) (by simp [cW0])]
    rfl
  exact ((acceptance_flags_monotone 5 stW0 "a_b" "b" none none none).1 _ _ hacc 0
    (by simp [stW0]) (by simp [stW1])).1 (by simp [stW0, cW0])

/-! ### Claim C9: nearby re-notification threshold and cooldown -/

/-- After `update_nearby_notified_at`, the connection is found with its
timestamp set to `now`. -/
lemma get_connection_update_nearby (st : ServerState) (cid : String)
    (conn : Connection) (now : ℤ) (hfind : get_connection st cid = some conn) :
    get_connection (update_nearby_notified_at st cid now) cid
      = some { conn with last_nearby_notified_at := some now } := by
  unfold get_connection at hfind ⊢
  unfold update_nearby_notified_at
  exact find?_updateFirst _ _ st.connections conn hfind
    (by simpa using List.find?_some hfind)

/-- C9: for an existing connection, `notify_nearby` is a no-op (no timestamp
write, no push, no event) when the stored match percentage is below 60, and
when a prior nearby timestamp lies less than 1 hour (3600 s) before now.
Otherwise it stamps `last_nearby_notified_at := now` and fires pushes to both
participants plus the `reencounter` broadcast; consequently a second call
within the hour is a no-op and a call once the window has elapsed fires
again. -/
theorem notify_nearby_spec (now : ℤ) (st : ServerState) (connection_id : String)
    (conn : Connection) (hfind : get_connection st connection_id = some conn) :
    (conn.match_percentage < 60 →
      notify_nearby now st connection_id = .ok (conn, st, []))
    ∧ (∀ t, 60 ≤ conn.match_percentage → conn.last_nearby_notified_at = some t →
        now - t < 3600 → notify_nearby now st connection_id = .ok (conn, st, []))
    ∧ (60 ≤ conn.match_percentage →
        (conn.last_nearby_notified_at = none ∨
          ∃ t, conn.last_nearby_notified_at = some t ∧ 3600 ≤ now - t) →
        notify_nearby now st connection_id
          = .ok (conn, update_nearby_notified_at st connection_id now,
              [.pushNearby conn.uid1 connection_id,
               .pushNearby conn.uid2 connection_id,
               .wsReencounter [conn.uid1, conn.uid2] connection_id]))
    ∧ (∀ now2, 60 ≤ conn.match_percentage → now2 - now < 3600 →
        notify_nearby now2 (update_nearby_notified_at st connection_id now)
            connection_id
          = .ok ({ conn with last_nearby_notified_at := some now },
              update_nearby_notified_at st connection_id now, []))
    ∧ (∀ now3, 60 ≤ conn.match_percentage → 3600 ≤ now3 - now →
        notify_nearby now3 (update_nearby_notified_at st connection_id now)
            connection_id
          = .ok ({ conn with last_nearby_notified_at := some now },
              update_nearby_notified_at
                (update_nearby_notified_at st connection_id now) connection_id now3,
              [.pushNearby conn.uid1 connection_id,
               .pushNearby conn.uid2 connection_id,
               .wsReencounter [conn.uid1, conn.uid2] connection_id])) := by
  have step : ∀ (n : ℤ) (st0 : ServerState) (c0 : Connection),
      get_connection st0 connection_id = some c0 →
      (c0.match_percentage < 60 →
        notify_nearby n st0 connection_id = .ok (c0, st0, []))
      ∧ (∀ t, 60 ≤ c0.match_percentage → c0.last_nearby_notified_at = some t →
          n - t < 3600 → notify_nearby n st0 connection_id = .ok (c0, st0, []))
      ∧ (60 ≤ c0.match_percentage →
          (c0.last_nearby_notified_at = none ∨
            ∃ t, c0.last_nearby_notified_at = some t ∧ 3600 ≤ n - t) →
          notify_nearby n st0 connection_id
            = .ok (c0, update_nearby_notified_at st0 connection_id n,
                [.pushNearby c0.uid1 connection_id,
                 .pushNearby c0.uid2 connection_id,
                 .wsReencounter [c0.uid1, c0.uid2] connection_id])) := by
    intro n st0 c0 hf
    refine ⟨?_, ?_, ?_⟩
    · intro hlt
      unfold notify_nearby
      rw [hf]
      simp only []
      rw [if_pos hlt]
    · intro t hge hsome hcool
      unfold notify_nearby
      rw [hf]
      simp only []
      rw [if_neg (not_lt.mpr hge), hsome]
      simp only []
      rw [if_pos (by simpa using hcool)]
    · intro hge hcase
      unfold notify_nearby
      rw [hf]
      simp only []
      rw [if_neg (not_lt.mpr hge)]
      rcases hcase with hnone | ⟨t, hsome, hel⟩
      · rw [hnone]
        rfl
      · rw [hsome]
        simp only []
        rw [if_neg (by simpa using not_lt.mpr hel)]
  obtain ⟨s1, s2, s3⟩ := step now st conn hfind
  have hupd := get_connection_update_nearby st connection_id conn now hfind
  refine ⟨s1, s2, s3, ?_, ?_⟩
  · intro now2 hge hcool
    exact (step now2 _ _ hupd).2.1 now hge rfl hcool
  · intro now3 hge hel
    exact (step now3 _ _ hupd).2.2 hge (Or.inr ⟨now, rfl, hel⟩)

/-- Witness state for the nearby-notification claim: one 80 % connection,
never nearby-notified. -/
def stN : ServerState :=
  { connections := [{ cW0 with uid2_accepted := false, last_nearby_notified_at := none }] }

theorem notify_nearby_spec_witness :
    notify_nearby 10000 stN "a_b"
        = .ok ({ cW0 with uid2_accepted := false },
            update_nearby_notified_at stN "a_b" 10000,
            [.pushNearby "a" "a_b", .pushNearby "b" "a_b",
             .wsReencounter ["a", "b"] "a_b"])
      ∧ notify_nearby 10001 (update_nearby_notified_at stN "a_b" 10000) "a_b"
        = .ok ({ cW0 with uid2_accepted := false, last_nearby_notified_at := some 10000 },
            update_nearby_notified_at stN "a_b" 10000, [])
      ∧ notify_nearby 13600 (update_nearby_notified_at stN "a_b" 10000) "a_b"
        = .ok ({ cW0 with uid2_accepted := false, last_nearby_notified_at := some 10000 },
            update_nearby_notified_at
              (update_nearby_notified_at stN "a_b" 10000) "a_b" 13600,
            [.pushNearby "a" "a_b", .pushNearby "b" "a_b",
             .wsReencounter ["a", "b"] "a_b"]) := by
  have hfind : get_connection stN "a_b"
      = some { cW0 with uid2_accepted := false, last_nearby_notified_at := none } := by
    simp [get_connection, stN, cW0]
  have h := notify_nearby_spec 10000 stN "a_b" _ hfind
  refine ⟨?_, ?_, ?_⟩
  · have := h.2.2.1 (by norm_num [cW0]) (Or.inl rfl)
    simpa [cW0] using this
  · have := h.2.2.2.1 10001 (by norm_num [cW0]) (by norm_num)
    simpa [cW0] using this
  · have := h.2.2.2.2 13600 (by norm_num [cW0]) (by norm_num)
    simpa [cW0] using this

/-! ### Claim C5: completion side effects and chat-room creation -/

/-- The chat-room key derivation is literally the connection-id derivation. -/
lemma make_room_id_eq_make_connection_id : make_room_id = make_connection_id :=
  funext fun _ => funext fun _ => rfl

/-- C5, amended: on every successful accept call, the completion side effects
(room get-or-create, `connection_complete` broadcast, completion pushes) fire
*iff the resulting record has both flags true* — hence also on repeated
accepts after completion, not only on the first-time transition (see
`accept_complete_effects_refire`); when a flag is still false only the
"someone accepted" effects fire.  The room is keyed by
`make_room_id conn.uid1 conn.uid2` — the same sorted-pair derivation as the
connection id — and is get-or-create, so the store never ends up with more
than one room for the pair, and has exactly one as soon as completion effects
have fired. -/
theorem accept_endpoint_completion (now : ℤ) (st : ServerState) (cid uid : String)
    (conn : Connection) (st2 : ServerState) (effs : List Effect)
    (h : accept_connection_endpoint now st cid uid = .ok (conn, st2, effs)) :
    ((conn.uid1_accepted ∧ conn.uid2_accepted) ↔
      effs = [.wsConnectionComplete [conn.uid1, conn.uid2] cid
                (make_room_id conn.uid1 conn.uid2),
              .pushComplete conn.uid1 cid (make_room_id conn.uid1 conn.uid2),
              .pushComplete conn.uid2 cid (make_room_id conn.uid1 conn.uid2)])
    ∧ (¬(conn.uid1_accepted ∧ conn.uid2_accepted) →
        effs = [.wsConnectionAccepted (if uid == conn.uid1 then conn.uid2 else conn.uid1) cid,
                .pushAccepted (if uid == conn.uid1 then conn.uid2 else conn.uid1) cid])
    ∧ make_room_id = make_connection_id
    ∧ (st.chat_rooms.countP
          (fun r => r.room_id == make_room_id conn.uid1 conn.uid2) ≤ 1 →
        st2.chat_rooms.countP
            (fun r => r.room_id == make_room_id conn.uid1 conn.uid2) ≤ 1
        ∧ ((conn.uid1_accepted ∧ conn.uid2_accepted) →
            st2.chat_rooms.countP
              (fun r => r.room_id == make_room_id conn.uid1 conn.uid2) = 1)) := by
  unfold accept_connection_endpoint at h
  cases haccept : accept_connection now st cid uid with
  | none => rw [haccept] at h; exact absurd h (by simp)
  | some pr =>
    obtain ⟨conn0, st1⟩ := pr
    rw [haccept] at h
    simp only [] at h
    have hchat1 : st1.chat_rooms = st.chat_rooms := by
      obtain ⟨r, hfind, hcase⟩ := accept_connection_cases now st cid uid conn0 st1 haccept
      rcases hcase with ⟨_, _, hst⟩ | ⟨_, _, _, hst⟩ <;> (subst hst; rfl)
    by_cases hboth : (conn0.uid1_accepted && conn0.uid2_accepted) = true
    · rw [if_pos hboth] at h
      unfold get_or_create_room at h
      simp only [] at h
      cases hroom : st1.chat_rooms.find?
          (fun r => r.room_id == make_room_id conn0.uid1 conn0.uid2) with
      | some rm =>
        rw [hroom] at h
        simp only [Except.ok.injEq, Prod.mk.injEq] at h
        obtain ⟨hc, hst, hef⟩ := h
        subst hc
        subst hst
        subst hef
        have hkey : rm.room_id = make_room_id conn0.uid1 conn0.uid2 := by
          simpa using List.find?_some hroom
        have handtrue : conn0.uid1_accepted = true ∧ conn0.uid2_accepted = true := by
          simpa using hboth
        refine ⟨?_, ?_, make_room_id_eq_make_connection_id, ?_⟩
        · rw [hkey]
          exact iff_of_true ⟨handtrue.1, handtrue.2⟩ rfl
        · intro hcon
          exact absurd ⟨handtrue.1, handtrue.2⟩ hcon
        · intro hpre
          rw [hchat1] at hroom
          have hmem := List.mem_of_find?_eq_some hroom
          have hp := List.find?_some hroom
          have hpos : 0 < st.chat_rooms.countP
              (fun r => r.room_id == make_room_id conn0.uid1 conn0.uid2) :=
            List.countP_pos_iff.mpr ⟨rm, hmem, hp⟩
          rw [hchat1]
          exact ⟨hpre, fun _ => le_antisymm hpre hpos⟩
      | none =>
        rw [hroom] at h
        simp only [Except.ok.injEq, Prod.mk.injEq] at h
        obtain ⟨hc, hst, hef⟩ := h
        subst hc
        subst hef
        have handtrue : conn0.uid1_accepted = true ∧ conn0.uid2_accepted = true := by
          simpa using hboth
        refine ⟨?_, ?_, make_room_id_eq_make_connection_id, ?_⟩
        · exact iff_of_true ⟨handtrue.1, handtrue.2⟩ rfl
        · intro hcon
          exact absurd ⟨handtrue.1, handtrue.2⟩ hcon
        · intro hpre
          rw [hchat1] at hroom
          have hzero : st.chat_rooms.countP
              (fun r => r.room_id == make_room_id conn0.uid1 conn0.uid2) = 0 :=
            List.countP_eq_zero.mpr fun r hr => by
              simpa using List.find?_eq_none.mp hroom r hr
          have hcount : st2.chat_rooms.countP
              (fun r => r.room_id == make_room_id conn0.uid1 conn0.uid2) = 1 := by
            rw [← hst]
            simp only [List.countP_append, hchat1, hzero]
            simp [List.countP_cons]
          exact ⟨le_of_eq hcount, fun _ => hcount⟩
    · rw [if_neg hboth] at h
      simp only [Except.ok.injEq, Prod.mk.injEq] at h
      obtain ⟨hc, hst, hef⟩ := h
      subst hc
      subst hst
      subst hef
      have hnot : ¬ (conn0.uid1_accepted ∧ conn0.uid2_accepted) := by
        intro hcon
        exact hboth (by simp [hcon.1, hcon.2])
      refine ⟨?_, fun _ => rfl, make_room_id_eq_make_connection_id, ?_⟩
      · refine iff_of_false hnot ?_
        intro heq
        have := congrArg List.length heq
        simp at this
      · intro hpre
        rw [hchat1]
        exact ⟨hpre, fun hcon => absurd hcon hnot⟩

lemma le_ab : ("a" : String) ≤ "b" := String.le_iff_toList_le.mpr (by decide)

lemma make_room_id_ab : make_room_id "a" "b" = "a_b" := by
  unfold make_room_id pySorted2
  rw [if_pos le_ab]
  rfl

/-- An already-complete connection (both flags true) for the C5
counterexample. -/
def cC : Connection :=
  { connection_id := "a_b", uid1 := "a", uid2 := "b", uid1_accepted := true
    uid2_accepted := true, match_percentage := 80, created_at := 0 }

def cC5 : Connection := { cC with updated_at := some 5 }

/-- The chat room already created when the connection first completed. -/
def rC : Room := { room_id := "a_b", participants := ["a", "b"], created_at := 0 }

def stC : ServerState := { connections := [cC], chat_rooms := [rC] }

def stC2 : ServerState := { connections := [cC5], chat_rooms := [rC] }

def effsC : List Effect :=
  [.wsConnectionComplete ["a", "b"] "a_b" "a_b",
   .pushComplete "a" "a_b" "a_b", .pushComplete "b" "a_b" "a_b"]

lemma accept_eval_stC :
    accept_connection_endpoint 5 stC "a_b" "a" = .ok (cC5, stC2, effsC) := by
  have haccept : accept_connection 5 stC "a_b" "a"
      = some (cC5, { stC with connections := [cC5] }) := by
    rw [(accept_connection_spec 5 stC "a_b" "a").2.1 cC (by simp [stC, cC])
      (by simp [cC])]
    rfl
  unfold accept_connection_endpoint
  rw [haccept]
  simp only []
  rw [if_pos (by decide : (cC5.uid1_accepted && cC5.uid2_accepted) = true)]
  unfold get_or_create_room
  simp only []
  rw [show stC.chat_rooms.find?
        (fun r => r.room_id == make_room_id cC5.uid1 cC5.uid2) = some rC by
      rw [show cC5.uid1 = "a" from rfl, show cC5.uid2 = "b" from rfl, make_room_id_ab]
      simp [stC, rC]]
  rfl

/-- C5, counterexample: with both acceptance flags already true, a further
accept call still emits the `connection_complete` event and completion pushes
— the side effects are not restricted to the transition that makes both
flags true for the first time. -/
theorem accept_complete_effects_refire :
    cC.uid1_accepted = true ∧ cC.uid2_accepted = true
    ∧ accept_connection_endpoint 5 stC "a_b" "a" = .ok (cC5, stC2, effsC)
    ∧ Effect.wsConnectionComplete ["a", "b"] "a_b" "a_b" ∈ effsC :=
  ⟨rfl, rfl, accept_eval_stC, by simp [effsC]⟩

theorem accept_endpoint_completion_witness :
    ((cC5.uid1_accepted ∧ cC5.uid2_accepted) ↔
      effsC = [.wsConnectionComplete [cC5.uid1, cC5.uid2] "a_b"
                 (make_room_id cC5.uid1 cC5.uid2),
               .pushComplete cC5.uid1 "a_b" (make_room_id cC5.uid1 cC5.uid2),
               .pushComplete cC5.uid2 "a_b" (make_room_id cC5.uid1 cC5.uid2)])
    ∧ stC2.chat_rooms.countP
        (fun r => r.room_id == make_room_id cC5.uid1 cC5.uid2) = 1 := by
  have h := accept_endpoint_completion 5 stC "a_b" "a" cC5 stC2 effsC accept_eval_stC
  refine ⟨h.1, ?_⟩
  refine (h.2.2.2 ?_).2 (by decide)
  rw [show cC5.uid1 = "a" from rfl, show cC5.uid2 = "b" from rfl, make_room_id_ab]
  simp [stC, rC]

/-! ### Claim C4: canonical pairing key and idempotent propose -/

lemma pySorted2_of_le (x y : String) (h : x ≤ y) : pySorted2 x y = (x, y) := if_pos h

lemma pySorted2_le1le2 (a b : String) : (pySorted2 a b).1 ≤ (pySorted2 a b).2 := by
  unfold pySorted2
  by_cases h : a ≤ b
  · rw [if_pos h]; exact h
  · rw [if_neg h]; exact le_of_lt (lt_of_not_le h)

lemma pySorted2_comm (a b : String) : pySorted2 a b = pySorted2 b a := by
  unfold pySorted2
  by_cases hab : a ≤ b
  · by_cases hba : b ≤ a
    · rw [if_pos hab, if_pos hba, le_antisymm hab hba]
    · rw [if_pos hab, if_neg hba]
  · by_cases hba : b ≤ a
    · rw [if_neg hab, if_pos hba]
    · exact absurd (le_total a b) (by simp [hab, hba])

lemma pySorted2_idem (a b : String) :
    pySorted2 (pySorted2 a b).1 (pySorted2 a b).2 = pySorted2 a b := by
  rw [pySorted2_of_le _ _ (pySorted2_le1le2 a b)]

lemma make_connection_id_comm (a b : String) :
    make_connection_id a b = make_connection_id b a := by
  unfold make_connection_id
  rw [pySorted2_comm]

lemma make_connection_id_sorted_pair (a b : String) :
    make_connection_id (pySorted2 a b).1 (pySorted2 a b).2 = make_connection_id a b := by
  unfold make_connection_id
  rw [pySorted2_idem]

lemma upsert_fresh (st : ServerState) (doc : Connection)
    (h : st.connections.find? (fun c => c.connection_id == doc.connection_id) = none) :
    upsert_connection st doc
      = (doc, { st with connections := st.connections ++ [doc] }) := by
  unfold upsert_connection
  rw [h]

lemma findOneAndUpdate_found {α : Type} (p : α → Bool) (f : α → α) (l : List α)
    (x : α) (h : l.find? p = some x) :
    findOneAndUpdate p f l = (some (f x), updateFirst p f l) := by
  unfold findOneAndUpdate
  rw [h]

/-- After a successful `create_connection` on a fresh pair, the returned
record is stored under the canonical id, carries that id, and has its
participants in sorted order. -/
lemma create_connection_stored
    (S : StudentProfile → StudentProfile → ℚ → Summaries) (now : ℤ)
    (st : ServerState) (a b : String) (c : Connection) (st1 : ServerState)
    (e : List Effect)
    (hfresh : get_connection st (make_connection_id a b) = none)
    (h : create_connection S now st a b = .ok (c, st1, e)) :
    get_connection st1 (make_connection_id a b) = some c
    ∧ c.connection_id = make_connection_id a b
    ∧ c.uid1 ≤ c.uid2 := by
  unfold create_connection at h
  simp only [] at h
  rw [make_connection_id_sorted_pair] at h
  rw [hfresh] at h
  simp only [] at h
  unfold create_connection_rest at h
  cases hg1 : get_student st (pySorted2 a b).1 with
  | none => rw [hg1] at h; exact absurd h (by simp)
  | some p1 =>
  cases hg2 : get_student st (pySorted2 a b).2 with
  | none => rw [hg1, hg2] at h; exact absurd h (by simp)
  | some p2 =>
  rw [hg1, hg2] at h
  simp only [] at h
  cases hcm : compute_match p1 (vectorize_profile p1) p2 (vectorize_profile p2) {} with
  | none => rw [hcm] at h; exact absurd h (by simp)
  | some ms =>
  rw [hcm] at h
  simp only [] at h
  have hfind : st.connections.find?
      (fun x => x.connection_id == make_connection_id a b) = none := hfresh
  rw [upsert_fresh st _ hfind] at h
  simp only [] at h
  have hdocfind : ∀ doc : Connection, doc.connection_id = make_connection_id a b →
      (st.connections ++ [doc]).find?
        (fun x => x.connection_id == make_connection_id a b) = some doc := by
    intro doc hdoc
    exact find?_append_fresh _ st.connections doc hfind (by simp [hdoc])
  by_cases hpct : round1 (ms.score * 100) ≥ 60
  · rw [if_pos hpct] at h
    by_cases hsum : (S p1 p2 (round1 (ms.score * 100))).uid1_summary.isSome
    · rw [if_pos hsum] at h
      unfold update_connection_summaries at h
      rw [findOneAndUpdate_found _ _ _ _ (hdocfind _ rfl)] at h
      simp only [Except.ok.injEq, Prod.mk.injEq] at h
      obtain ⟨hc, hst, hef⟩ := h
      subst hc
      subst hst
      refine ⟨?_, rfl, pySorted2_le1le2 a b⟩
      unfold get_connection
      exact find?_updateFirst _ _ _ _ (hdocfind _ rfl) (by simp)
    · rw [if_neg hsum] at h
      simp only [Except.ok.injEq, Prod.mk.injEq] at h
      obtain ⟨hc, hst, hef⟩ := h
      subst hc
      subst hst
      refine ⟨?_, rfl, pySorted2_le1le2 a b⟩
      unfold get_connection
      exact hdocfind _ rfl
  · rw [if_neg hpct] at h
    simp only [Except.ok.injEq, Prod.mk.injEq] at h
    obtain ⟨hc, hst, hef⟩ := h
    subst hc
    subst hst
    refine ⟨?_, rfl, pySorted2_le1le2 a b⟩
    unfold get_connection
    exact hdocfind _ rfl

/-- C4: the canonical pairing key is symmetric, and proposing (A,B) then
(B,A) on a fresh pair returns the very same record: identical
`connection_id` (the canonical one), identical `match_percentage`, stored
participants in sorted order; the second call changes nothing and fires no
side effects. -/
theorem propose_pair_symmetric
    (S : StudentProfile → StudentProfile → ℚ → Summaries) (now1 now2 : ℤ)
    (st : ServerState) (a b : String) (c1 : Connection) (st1 : ServerState)
    (e1 : List Effect) (c2 : Connection) (st2 : ServerState) (e2 : List Effect)
    (hfresh : get_connection st (make_connection_id a b) = none)
    (h1 : create_connection S now1 st a b = .ok (c1, st1, e1))
    (h2 : create_connection S now2 st1 b a = .ok (c2, st2, e2)) :
    (∀ x y, make_connection_id x y = make_connection_id y x)
    ∧ c2 = c1
    ∧ c1.connection_id = make_connection_id a b
    ∧ c2.match_percentage = c1.match_percentage
    ∧ c1.uid1 ≤ c1.uid2
    ∧ st2 = st1 ∧ e2 = [] := by
  obtain ⟨hstored, hid, hsorted⟩ := create_connection_stored S now1 st a b c1 st1 e1 hfresh h1
  unfold create_connection at h2
  simp only [] at h2
  rw [make_connection_id_sorted_pair, make_connection_id_comm b a] at h2
  rw [hstored] at h2
  simp only [Except.ok.injEq, Prod.mk.injEq] at h2
  obtain ⟨hc, hst, hef⟩ := h2
  exact ⟨make_connection_id_comm, hc.symm, hid, by rw [hc], hsorted, hst.symm, hef.symm⟩

/-- All-null summary generator for witnesses. -/
def sumW : StudentProfile → StudentProfile → ℚ → Summaries := fun _ _ _ => {}

def stP : ServerState := { students := [pW1, pW2] }

/-- The connection document `propose("w1","w2")` creates for the empty
witness profiles (score 0). -/
def cD : Connection :=
  { connection_id := "w1_w2", uid1 := "w1", uid2 := "w2"
    match_percentage := 0, created_at := 0 }

def stP1 : ServerState := { students := [pW1, pW2], connections := [cD] }

lemma pySorted2_w : pySorted2 "w1" "w2" = ("w1", "w2") :=
  pySorted2_of_le _ _ (String.le_iff_toList_le.mpr (by decide))

lemma make_connection_id_w : make_connection_id "w1" "w2" = "w1_w2" := by
  unfold make_connection_id
  rw [pySorted2_w]
  rfl

lemma create_eval_w :
    create_connection sumW 0 stP "w1" "w2"
      = .ok (cD, stP1, [.pushNew "w1" "w1_w2", .pushNew "w2" "w1_w2"]) := by
  unfold create_connection
  simp only []
  rw [pySorted2_w]
  simp only []
  rw [make_connection_id_w]
  rw [show get_connection stP "w1_w2" = none from rfl]
  unfold create_connection_rest
  rw [show get_student stP "w1" = some pW1 from by simp [get_student, stP, pW1, pW2]]
  rw [show get_student stP "w2" = some pW2 from by simp [get_student, stP, pW1, pW2]]
  simp only []
  rw [compute_match_pW]
  simp only []
  rw [show round1 (msW.score * 100) = 0 from by norm_num [round1, msW]]
  rw [upsert_fresh stP _ (by simp [stP])]
  rw [if_neg (by norm_num : ¬ ((0:ℚ) ≥ 60))]
  rfl

lemma create_eval_w2 :
    create_connection sumW 1 stP1 "w2" "w1" = .ok (cD, stP1, []) := by
  have hps : pySorted2 "w2" "w1" = ("w1", "w2") := by
    unfold pySorted2
    rw [if_neg (fun hcon => absurd (String.le_iff_toList_le.mp hcon) (by decide))]
  unfold create_connection
  simp only []
  rw [hps]
  simp only []
  rw [make_connection_id_w]
  rw [show get_connection stP1 "w1_w2" = some cD from by simp [get_connection, stP1, cD]]

/-- Witness for `propose_pair_symmetric` on the concrete witness profiles. -/
theorem propose_pair_symmetric_witness :
    (∀ x y, make_connection_id x y = make_connection_id y x)
    ∧ cD = cD
    ∧ cD.connection_id = make_connection_id "w1" "w2"
    ∧ cD.match_percentage = cD.match_percentage
    ∧ cD.uid1 ≤ cD.uid2
    ∧ stP1 = stP1 ∧ ([] : List Effect) = [] := by
  have h := propose_pair_symmetric sumW 0 1 stP "w1" "w2" cD stP1
    [.pushNew "w1" "w1_w2", .pushNew "w2" "w1_w2"] cD stP1 []
    (by rw [make_connection_id_w]; rfl) create_eval_w create_eval_w2
  exact ⟨h.1, h.2.1, h.2.2.1, h.2.2.2.1, h.2.2.2.2.1, h.2.2.2.2.2⟩

/-! ### Claim C1: side effects on the duplicate-insert path

`create_connection` checks for an existing record (`app.py` line 263) and
only then runs the creation phase; but the creation phase branches on
`match_percentage >= 60` *after* `upsert_connection` without asking whether
the insert created the document or recovered an existing duplicate via
`DuplicateKeyError`.  Under the interleaving in which two concurrent
`POST /connections` calls for the same pair both pass the pre-check before
either insert runs (each `await` is a suspension point), both calls execute
the creation phase: the second one's `upsert_connection` resolves to the
already-existing record, yet it still generates summaries and broadcasts
`match_found`.  The trace below exhibits this schedule. -/

/-- Summary generator returning fixed summaries (the happy path). -/
def sumS : StudentProfile → StudentProfile → ℚ → Summaries :=
  fun _ _ _ => { uid1_summary := some "s1", uid2_summary := some "s2"
                 notification_message := some "m" }

/-- Profile "a": unit possessed/needed embedding vectors (match 65 %). -/
def pA : StudentProfile :=
  { uid := "a", created_at := 0, identity := identW, focus_areas := []
    rag := some { possessed_vector := [Val.num 1], needed_vector := [Val.num 1] }
    skills := {} }

def pB : StudentProfile :=
  { uid := "b", created_at := 0, identity := identW, focus_areas := []
    rag := some { possessed_vector := [Val.num 1], needed_vector := [Val.num 1] }
    skills := {} }

/-- The score `compute_match` yields for `pA` against `pB`:
complementarity 1, focus 0, industry 0 — total 0.65. -/
def msA : MatchScore :=
  { score := (0.65:ℝ) * ((0.5:ℝ) * 1 + (0.5:ℝ) * 1) + (0.20:ℝ) * 0 + (0.15:ℝ) * 0
    complementarity := (0.5:ℝ) * 1 + (0.5:ℝ) * 1
    help_they_give_you := 1, help_you_give_them := 1
    focus_overlap := 0, industry_overlap := 0
    matched_skills := [], skills_you_offer := [] }

lemma compute_match_pAB :
    compute_match pA (vectorize_profile pA) pB (vectorize_profile pB) {}
      = some msA := by
  have hsem : use_semantic (vectorize_profile pA) (vectorize_profile pB) = true := by
    apply use_semantic_num_num 1 1 [] []
    · simp [vectorize_profile, pA]
    · simp [vectorize_profile, pB]
  have hfoc : cosine_sim (vectorize_profile pA).focus_vec
      (vectorize_profile pB).focus_vec = some 0 := by
    rw [focus_vec_eq, focus_vec_eq]
    simpa [pA, pB, FOCUS_AREA_ORDER] using cosine_zeros5
  have ha : cosine_sim (vectorize_profile pA).needed_vec
      (vectorize_profile pB).possessed_vec = some 1 := by
    simpa [vectorize_profile, pA, pB] using cosine_one_one
  have hb : cosine_sim (vectorize_profile pB).needed_vec
      (vectorize_profile pA).possessed_vec = some 1 := by
    simpa [vectorize_profile, pA, pB] using cosine_one_one
  rw [compute_match_semantic pA _ pB _ {} 1 1 0 hsem ha hb hfoc]
  simp [pA, pB, vectorize_profile, jaccard_sim, msA, Weights]

lemma round1_msA : round1 (msA.score * 100) = 65 := by
  rw [round1, round_eq]
  norm_num [msA]

lemma make_connection_id_ab : make_connection_id "a" "b" = "a_b" := by
  unfold make_connection_id
  rw [pySorted2_of_le _ _ le_ab]
  rfl

def st0 : ServerState := { students := [pA, pB] }

/-- The stored record after the first creation phase: summaries attached. -/
def c1R : Connection :=
  { connection_id := "a_b", uid1 := "a", uid2 := "b", match_percentage := 65
    uid1_summary := some "s1", uid2_summary := some "s2"
    notification_message := some "m", created_at := 0, updated_at := some 0 }

def st1R : ServerState := { students := [pA, pB], connections := [c1R] }

def c2R : Connection := { c1R with updated_at := some 1 }

def st2R : ServerState := { students := [pA, pB], connections := [c2R] }

/-- The side effects of one pass through the creation phase. -/
def e1R : List Effect :=
  [.summariesGenerated "a_b", .wsMatchFound ["a", "b"] "a_b",
   .pushNew "a" "a_b", .pushNew "b" "a_b"]

lemma create_rest_eval_1 :
    create_connection_rest sumS 0 st0 "a" "b" "a_b" = .ok (c1R, st1R, e1R) := by
  unfold create_connection_rest
  rw [show get_student st0 "a" = some pA from rfl]
  rw [show get_student st0 "b" = some pB from rfl]
  simp only []
  rw [compute_match_pAB]
  simp only []
  rw [round1_msA]
  rfl

lemma create_rest_eval_2 :
    create_connection_rest sumS 1 st1R "a" "b" "a_b" = .ok (c2R, st2R, e1R) := by
  unfold create_connection_rest
  rw [show get_student st1R "a" = some pA from rfl]
  rw [show get_student st1R "b" = some pB from rfl]
  simp only []
  rw [compute_match_pAB]
  simp only []
  rw [round1_msA]
  rfl

/-- C1: the interleaved trace.  Both calls' pre-checks (line 263) see no
record (the state is `st0` at both suspension points); then both run the
creation phase.  The first inserts and fires the side effects; the second
resolves to the existing record via `DuplicateKeyError` — the store still
holds exactly one record — yet fires summary generation and the
`match_found` broadcast again: across the two calls each creation side
effect runs twice, not once. -/
theorem propose_duplicate_path_fires_side_effects :
    get_connection st0 "a_b" = none
    ∧ create_connection sumS 0 st0 "a" "b" = .ok (c1R, st1R, e1R)
    ∧ create_connection_rest sumS 0 st0 "a" "b" "a_b" = .ok (c1R, st1R, e1R)
    ∧ create_connection_rest sumS 1 st1R "a" "b" "a_b" = .ok (c2R, st2R, e1R)
    ∧ st1R.connections.length = 1
    ∧ st2R.connections.length = 1
    ∧ (e1R ++ e1R).countP (fun e => e == Effect.wsMatchFound ["a", "b"] "a_b") = 2
    ∧ (e1R ++ e1R).countP (fun e => e == Effect.summariesGenerated "a_b") = 2 := by
  refine ⟨rfl, ?_, create_rest_eval_1, create_rest_eval_2, rfl, rfl, by decide, by decide⟩
  unfold create_connection
  simp only []
  rw [pySorted2_of_le _ _ le_ab]
  simp only []
  rw [make_connection_id_ab]
  rw [show get_connection st0 "a_b" = none from rfl]
  exact create_rest_eval_1

/-! ### Claim C10: embedding regeneration on create/update -/

lemma map_rag_updateFirst (p : StudentDoc → Bool) (f : StudentDoc → StudentDoc)
    (hf : ∀ d, (f d).rag = d.rag) :
    ∀ l : List StudentDoc,
      (updateFirst p f l).map StudentDoc.rag = l.map StudentDoc.rag
  | [] => rfl
  | d :: ds => by
    unfold updateFirst
    by_cases hp : p d = true
    · rw [if_pos hp]
      simp [hf d]
    · rw [if_neg hp]
      simp [map_rag_updateFirst p f hf ds]

/-- C10: the code never stores a regenerated embedding bundle.
`generate_profile_embeddings` is `async` but called without `await`
(`student.py` lines 128 and 172), so (1) the document `create_student` builds
carries the un-awaited coroutine object in its `rag` slot — never
`PyRagVal.val r` for any bundle `r`, in particular never the freshly
generated `generate_profile_embeddings` output — and the insert errors,
leaving the collection unchanged; (2) no `update_student` call ever changes
any stored `rag` (a skills/project update applies the field changes and then
errors before the rag write, leaving the bundle stale); (3) an update whose
changes include `skills` or `project` errors; (4) an update touching neither
field succeeds and (by (2)) leaves `rag` unchanged. -/
theorem embedding_bundle_never_regenerated :
    (∀ (now : ℤ) (uuid : String) (data : StudentCreate),
      (create_student_doc now uuid data).rag
          = PyRagVal.coroutine (temp_profile now uuid data)
        ∧ (∀ r : Rag, (create_student_doc now uuid data).rag ≠ PyRagVal.val r)
        ∧ (∀ embed : String → List ℚ,
            (create_student_doc now uuid data).rag
              ≠ PyRagVal.val (generate_profile_embeddings embed now
                  (temp_profile now uuid data))))
    ∧ (∀ (now : ℤ) (uuid : String) (docs : List StudentDoc) (data : StudentCreate),
        create_student now uuid docs data = (.error (), docs))
    ∧ (∀ (now : ℤ) (docs : List StudentDoc) (uid : String) (data : StudentUpdate),
        ((update_student now docs uid data).2).map StudentDoc.rag
          = docs.map StudentDoc.rag)
    ∧ (∀ (now : ℤ) (docs : List StudentDoc) (uid : String) (data : StudentUpdate)
        (d : StudentDoc), docs.find? (fun x => x.uid == uid) = some d →
        (data.skills.isSome = true ∨ data.project.isSome = true) →
        (update_student now docs uid data).1 = .error ())
    ∧ (∀ (now : ℤ) (docs : List StudentDoc) (uid : String)
        (i : Option Identity) (f : Option (List FocusArea)),
        (update_student now docs uid
          ({ identity := i, focus_areas := f, project := none, skills := none }
            : StudentUpdate)).1 ≠ .error ()) := by
  refine ⟨?_, ?_, ?_, ?_, ?_⟩
  · intro now uuid data
    exact ⟨rfl, fun r h => PyRagVal.noConfusion h, fun embed h => PyRagVal.noConfusion h⟩
  · intro now uuid docs data
    rfl
  · intro now docs uid data
    unfold update_student
    by_cases hnone : data.identity = none ∧ data.focus_areas = none
        ∧ data.project = none ∧ data.skills = none
    · rw [if_pos hnone]
    · rw [if_neg hnone]
      unfold findOneAndUpdate
      cases hfind : docs.find? (fun d => d.uid == uid) with
      | none => simp only []
      | some d =>
        simp only []
        have hmap := map_rag_updateFirst (fun d => d.uid == uid)
          (applyChanges now data) (fun _ => rfl) docs
        by_cases hsp : (data.skills.isSome || data.project.isSome) = true
        · rw [if_pos hsp]
          cases htp : toProfile (applyChanges now data d) with
          | none => simpa using hmap
          | some profile => simpa using hmap
        · rw [if_neg hsp]
          simpa using hmap
  · intro now docs uid data d hfind hsp
    unfold update_student
    have hnotnone : ¬ (data.identity = none ∧ data.focus_areas = none
        ∧ data.project = none ∧ data.skills = none) := by
      rintro ⟨_, _, hp, hs⟩
      rcases hsp with h | h
      · rw [hs] at h; simp at h
      · rw [hp] at h; simp at h
    rw [if_neg hnotnone]
    unfold findOneAndUpdate
    rw [hfind]
    simp only []
    rw [if_pos (by rcases hsp with h | h <;> simp [h])]
    cases htp : toProfile (applyChanges now data d) with
    | none => rfl
    | some profile => rfl
  · intro now docs uid i f
    unfold update_student
    by_cases hnone : i = none ∧ f = none
    · rw [if_pos (by simp [hnone.1, hnone.2])]
      simp
    · rw [if_neg (by simpa using fun hi hf => hnone ⟨hi, hf⟩)]
      unfold findOneAndUpdate
      cases hfind : docs.find? (fun d => d.uid == uid) with
      | none => simp
      | some d =>
        simp only []
        rw [if_neg (by simp)]
        simp

/-- A stored student document with a cached embedding bundle. -/
def dW : StudentDoc :=
  { uid := "s1", created_at := 0, identity := identW, focus_areas := []
    rag := .val { possessed_vector := [Val.num 1], needed_vector := [Val.num 1] }
    skills := {} }

/-- An update that changes the skills field. -/
def updW : StudentUpdate :=
  { skills := some { needed := [{ name := "react", priority := .must_have }] } }

theorem embedding_bundle_never_regenerated_witness :
    (update_student 5 [dW] "s1" updW).1 = .error ()
      ∧ ((update_student 5 [dW] "s1" updW).2).map StudentDoc.rag = [dW.rag] := by
  constructor
  · exact embedding_bundle_never_regenerated.2.2.2.1 5 [dW] "s1" updW dW
      (by simp [dW]) (Or.inl rfl)
  · rw [embedding_bundle_never_regenerated.2.2.1 5 [dW] "s1" updW]
    rfl
end Raike
